import Mathlib

/-
Verification of the cloth-simulation core (src/test_py/test_ti/3.0physsim.py and
src/test_py/test_ti/p.clothes.py) against its natural-language specification.

The Taichi float fields are modelled over the reals.  Positions and velocities
are total functions from integer index pairs to 3-vectors; the simulation
kernels only ever read or write indices inside the n x n grid.  Scalar
constants that the scripts fix at module level (n, dt, spring_Y, ...) are
collected in a Params record so that statements can quantify over them; the
concrete values of each script are given as definitions below.
-/

/-- A 3-component real vector, modelling a Taichi 3-vector of floats. -/
structure Vec3 where
  x : ℝ
  y : ℝ
  z : ℝ

namespace Vec3

@[ext] theorem ext2 {a b : Vec3} (hx : a.x = b.x) (hy : a.y = b.y) (hz : a.z = b.z) :
    a = b := by
  cases a; cases b; simp_all

instance : Zero Vec3 := ⟨⟨0, 0, 0⟩⟩
instance : Add Vec3 := ⟨fun a b => ⟨a.x + b.x, a.y + b.y, a.z + b.z⟩⟩
instance : Sub Vec3 := ⟨fun a b => ⟨a.x - b.x, a.y - b.y, a.z - b.z⟩⟩
instance : Neg Vec3 := ⟨fun a => ⟨-a.x, -a.y, -a.z⟩⟩
instance : SMul ℝ Vec3 := ⟨fun c a => ⟨c * a.x, c * a.y, c * a.z⟩⟩

@[simp] theorem zero_x : (0 : Vec3).x = 0 := rfl
@[simp] theorem zero_y : (0 : Vec3).y = 0 := rfl
@[simp] theorem zero_z : (0 : Vec3).z = 0 := rfl
@[simp] theorem add_x (a b : Vec3) : (a + b).x = a.x + b.x := rfl
@[simp] theorem add_y (a b : Vec3) : (a + b).y = a.y + b.y := rfl
@[simp] theorem add_z (a b : Vec3) : (a + b).z = a.z + b.z := rfl
@[simp] theorem sub_x (a b : Vec3) : (a - b).x = a.x - b.x := rfl
@[simp] theorem sub_y (a b : Vec3) : (a - b).y = a.y - b.y := rfl
@[simp] theorem sub_z (a b : Vec3) : (a - b).z = a.z - b.z := rfl
@[simp] theorem neg_x (a : Vec3) : (-a).x = -a.x := rfl
@[simp] theorem neg_y (a : Vec3) : (-a).y = -a.y := rfl
@[simp] theorem neg_z (a : Vec3) : (-a).z = -a.z := rfl
@[simp] theorem smul_x (c : ℝ) (a : Vec3) : (c • a).x = c * a.x := rfl
@[simp] theorem smul_y (c : ℝ) (a : Vec3) : (c • a).y = c * a.y := rfl
@[simp] theorem smul_z (c : ℝ) (a : Vec3) : (c • a).z = c * a.z := rfl
@[simp] theorem mk_x (a b c : ℝ) : (Vec3.mk a b c).x = a := rfl
@[simp] theorem mk_y (a b c : ℝ) : (Vec3.mk a b c).y = b := rfl
@[simp] theorem mk_z (a b c : ℝ) : (Vec3.mk a b c).z = c := rfl

/-- Dot product of two vectors, as computed by Taichi `a.dot(b)`. -/
def dot (a b : Vec3) : ℝ := a.x * b.x + a.y * b.y + a.z * b.z

/-- Euclidean norm, as computed by Taichi `a.norm()`. -/
noncomputable def norm (a : Vec3) : ℝ := Real.sqrt (a.dot a)

/-- Unit vector in the direction of `a`, as computed by Taichi `a.normalized()`
(a division by `a.norm()`; the zero-norm case divides by zero). -/
noncomputable def normalized (a : Vec3) : Vec3 := (1 / a.norm) • a

theorem dot_comm (a b : Vec3) : a.dot b = b.dot a := by
  simp only [dot]; ring

theorem dot_self_nonneg (a : Vec3) : 0 ≤ a.dot a := by
  simp only [dot]
  nlinarith [mul_self_nonneg a.x, mul_self_nonneg a.y, mul_self_nonneg a.z]

theorem norm_nonneg (a : Vec3) : 0 ≤ a.norm := Real.sqrt_nonneg _

theorem sq_norm (a : Vec3) : a.norm ^ 2 = a.dot a :=
  Real.sq_sqrt (dot_self_nonneg a)

theorem dot_self_eq_zero_iff (a : Vec3) : a.dot a = 0 ↔ a = 0 := by
  constructor
  · intro h
    simp only [dot] at h
    have hx : a.x = 0 := by
      nlinarith [mul_self_nonneg a.x, mul_self_nonneg a.y, mul_self_nonneg a.z]
    have hy : a.y = 0 := by
      nlinarith [mul_self_nonneg a.x, mul_self_nonneg a.y, mul_self_nonneg a.z]
    have hz : a.z = 0 := by
      nlinarith [mul_self_nonneg a.x, mul_self_nonneg a.y, mul_self_nonneg a.z]
    ext <;> simp [hx, hy, hz]
  · intro h; subst h; simp [dot]

theorem norm_eq_zero_iff (a : Vec3) : a.norm = 0 ↔ a = 0 := by
  rw [norm, Real.sqrt_eq_zero (dot_self_nonneg a), dot_self_eq_zero_iff]

theorem dot_neg_neg (a b : Vec3) : (-a).dot (-b) = a.dot b := by
  simp only [dot, neg_x, neg_y, neg_z]; ring

theorem norm_neg (a : Vec3) : (-a).norm = a.norm := by
  rw [norm, norm, dot_neg_neg]

theorem neg_sub_vec (a b : Vec3) : -(a - b) = b - a := by
  ext <;> simp

theorem normalized_neg (a : Vec3) : (-a).normalized = -a.normalized := by
  rw [normalized, normalized, norm_neg]
  ext <;> simp

@[simp] theorem one_smul_vec (a : Vec3) : (1 : ℝ) • a = a := by
  ext <;> simp

@[simp] theorem smul_zero_vec (c : ℝ) : c • (0 : Vec3) = 0 := by
  ext <;> simp

@[simp] theorem zero_smul_vec (a : Vec3) : (0 : ℝ) • a = 0 := by
  ext <;> simp

@[simp] theorem add_zero_vec (a : Vec3) : a + 0 = a := by
  ext <;> simp

@[simp] theorem zero_add_vec (a : Vec3) : 0 + a = a := by
  ext <;> simp

theorem dot_smul_left (c : ℝ) (a b : Vec3) : (c • a).dot b = c * a.dot b := by
  simp only [dot, smul_x, smul_y, smul_z]; ring

theorem dot_smul_right (c : ℝ) (a b : Vec3) : a.dot (c • b) = c * a.dot b := by
  simp only [dot, smul_x, smul_y, smul_z]; ring

theorem dot_add_left (a b c : Vec3) : (a + b).dot c = a.dot c + b.dot c := by
  simp only [dot, add_x, add_y, add_z]; ring

theorem dot_sub_left (a b c : Vec3) : (a - b).dot c = a.dot c - b.dot c := by
  simp only [dot, sub_x, sub_y, sub_z]; ring

theorem smul_smul_vec (c d : ℝ) (a : Vec3) : c • d • a = (c * d) • a := by
  ext <;> simp <;> ring

/-- The normalized vector of a nonzero vector has unit dot with itself. -/
theorem dot_normalized_self (a : Vec3) (h : a ≠ 0) : a.normalized.dot a.normalized = 1 := by
  have hd : a.dot a ≠ 0 := fun hc => h ((dot_self_eq_zero_iff a).mp hc)
  have hn : a.norm ≠ 0 := fun hc => h ((norm_eq_zero_iff a).mp hc)
  rw [normalized, dot_smul_left, dot_smul_right]
  have hsq : a.norm * a.norm = a.dot a := by
    have := sq_norm a; nlinarith [this]
  field_simp
  rw [hsq]

end Vec3

/-- Module-level scalar configuration of the two scripts. -/
structure Params where
  n : ℕ
  gravity : Vec3
  spring_Y : ℝ
  dashpot_damping : ℝ
  drag_damping : ℝ
  ball_radius : ℝ
  dt : ℝ

/-- quad_size = 1.0 / n. -/
noncomputable def quad_size (P : Params) : ℝ := 1 / (P.n : ℝ)

/-- Parameters of p.clothes.py as a function of the grid size (the script
fixes n = 128): dt = 2e-2 / n, gravity (0,-9.8,0), spring_Y 3e4,
dashpot_damping 1e4, drag_damping 1, ball_radius 0.3. -/
noncomputable def clothesParamsN (n : ℕ) : Params :=
  ⟨n, ⟨0, -9.8, 0⟩, 3e4, 1e4, 1, 0.3, 2e-2 / (n : ℝ)⟩

/-- The concrete parameters of p.clothes.py (n = 128). -/
noncomputable def clothesParams : Params := clothesParamsN 128

/-- Parameters of 3.0physsim.py as a function of the grid size (the script
fixes n = 128): dt = 4e-2 / n, other constants as in p.clothes.py. -/
noncomputable def physsimParamsN (n : ℕ) : Params :=
  ⟨n, ⟨0, -9.8, 0⟩, 3e4, 1e4, 1, 0.3, 4e-2 / (n : ℝ)⟩

/-- Membership of an integer index pair in the n x n grid, the bound check
`0 <= j[0] < n and 0 <= j[1] < n` of the spring pass. -/
def inGrid (n : ℕ) (p : ℤ × ℤ) : Prop :=
  0 ≤ p.1 ∧ p.1 < (n : ℤ) ∧ 0 ≤ p.2 ∧ p.2 < (n : ℤ)

instance (n : ℕ) (p : ℤ × ℤ) : Decidable (inGrid n p) := by
  unfold inGrid; infer_instance

/-- The grid indices in row-major order, the order in which the sequential
loops of the scripts visit the nodes. -/
def rowMajor (n : ℕ) : List (ℤ × ℤ) :=
  (List.range n).flatMap (fun i => (List.range n).map (fun (j : ℕ) => ((i : ℤ), (j : ℤ))))

/-- The list of integers from a (inclusive) to b (exclusive), mirroring the
Python `range(a, b)` used to build the spring offsets. -/
def intRange (a b : ℤ) : List ℤ := (List.range (b - a).toNat).map (fun k => a + (k : ℤ))

/-- initialize_spring_offsets / the module-level offset construction:
for bending springs the 8-neighborhood `range(-1, 2) x range(-1, 2)` minus
(0,0); otherwise `range(-2, 3) x range(-2, 3)` with `abs(i) + abs(j) <= 2`
and (0,0) removed (12 offsets). -/
def initialize_spring_offsets (bending_springs : Bool) : List (ℤ × ℤ) :=
  if bending_springs then
    (intRange (-1) 2).flatMap (fun i =>
      (intRange (-1) 2).filterMap (fun j =>
        if (i, j) ≠ ((0 : ℤ), (0 : ℤ)) then some (i, j) else none))
  else
    (intRange (-2) 3).flatMap (fun i =>
      (intRange (-2) 3).filterMap (fun j =>
        if (i, j) ≠ ((0 : ℤ), (0 : ℤ)) ∧ |i| + |j| ≤ 2 then some (i, j) else none))

/-- Norm of an integer offset vector viewed as floats, as in
`float(i - j).norm()` (the script applies it to `i - j = -offset`, whose
norm equals the norm of the offset). -/
noncomputable def offNorm (o : ℤ × ℤ) : ℝ := Real.sqrt ((o.1 : ℝ) ^ 2 + (o.2 : ℝ) ^ 2)

theorem offNorm_neg (o : ℤ × ℤ) : offNorm (-o.1, -o.2) = offNorm o := by
  simp only [offNorm, Int.cast_neg, neg_sq]

/-- The spring-pass contribution of one in-bounds neighbor, from
p.clothes.py lines 89-95 (identical in 3.0physsim.py lines 139-151):
elastic term `-spring_Y * d * (current_dist / original_dist - 1)` plus the
dashpot term `-v_ij.dot(d) * d * dashpot_damping * quad_size`. -/
noncomputable def springForceContrib (P : Params) (xi xj vi vj : Vec3) (off : ℤ × ℤ) : Vec3 :=
  let x_ij := xi - xj
  let v_ij := vi - vj
  let d := x_ij.normalized
  let current_dist := x_ij.norm
  let original_dist := quad_size P * offNorm off
  (-P.spring_Y * (current_dist / original_dist - 1)) • d +
    (-(v_ij.dot d) * P.dashpot_damping * quad_size P) • d

/-- The accumulated spring force on node `i`: fold over the offset list,
skipping neighbors outside the grid, reading positions from `x` and
velocities from `v`. -/
noncomputable def springForceAt (P : Params) (offs : List (ℤ × ℤ)) (x v : ℤ × ℤ → Vec3)
    (i : ℤ × ℤ) : Vec3 :=
  offs.foldl (fun force off =>
    if inGrid P.n (i.1 + off.1, i.2 + off.2) then
      force + springForceContrib P (x i) (x (i.1 + off.1, i.2 + off.2))
        (v i) (v (i.1 + off.1, i.2 + off.2)) off
    else force) 0

/-- Double-buffered reference spring pass: every node's force is computed
from the same pre-pass snapshot `v`, then all updates are applied. -/
noncomputable def springPassBuf (P : Params) (offs : List (ℤ × ℤ)) (x v : ℤ × ℤ → Vec3) :
    ℤ × ℤ → Vec3 :=
  fun i => if inGrid P.n i then v i + P.dt • springForceAt P offs x v i else v i

/-- In-place sequential spring pass, as the scripts write it: visit the nodes
in the given order and commit `v[i] += force * dt` immediately, so later
nodes read already-updated neighbor velocities. -/
noncomputable def springPassSeq (P : Params) (offs : List (ℤ × ℤ)) (x : ℤ × ℤ → Vec3)
    (order : List (ℤ × ℤ)) (v : ℤ × ℤ → Vec3) : ℤ × ℤ → Vec3 :=
  order.foldl (fun w i => Function.update w i (w i + P.dt • springForceAt P offs x w i)) v

/-- With a zero dashpot coefficient the per-neighbor contribution does not
depend on the velocity arguments: the dashpot summand vanishes. -/
theorem springForceContrib_vel_indep (P : Params) (hdp : P.dashpot_damping = 0)
    (xi xj vi vj vi2 vj2 : Vec3) (off : ℤ × ℤ) :
    springForceContrib P xi xj vi vj off = springForceContrib P xi xj vi2 vj2 off := by
  simp only [springForceContrib, hdp, mul_zero, zero_mul]

/-- With a zero dashpot coefficient the accumulated spring force does not
depend on the velocity field. -/
theorem springForceAt_vel_indep (P : Params) (hdp : P.dashpot_damping = 0)
    (offs : List (ℤ × ℤ)) (x v w : ℤ × ℤ → Vec3) (i : ℤ × ℤ) :
    springForceAt P offs x v i = springForceAt P offs x w i := by
  unfold springForceAt
  have aux : ∀ (t : List (ℤ × ℤ)) (a : Vec3),
      t.foldl (fun force off =>
        if inGrid P.n (i.1 + off.1, i.2 + off.2) then
          force + springForceContrib P (x i) (x (i.1 + off.1, i.2 + off.2))
            (v i) (v (i.1 + off.1, i.2 + off.2)) off
        else force) a =
      t.foldl (fun force off =>
        if inGrid P.n (i.1 + off.1, i.2 + off.2) then
          force + springForceContrib P (x i) (x (i.1 + off.1, i.2 + off.2))
            (w i) (w (i.1 + off.1, i.2 + off.2)) off
        else force) a := by
    intro t
    induction t with
    | nil => intro a; rfl
    | cons o rest ih =>
      intro a
      simp only [List.foldl_cons]
      by_cases h : inGrid P.n (i.1 + o.1, i.2 + o.2)
      · rw [if_pos h, if_pos h,
          springForceContrib_vel_indep P hdp (x i) (x (i.1 + o.1, i.2 + o.2))
            (v i) (v (i.1 + o.1, i.2 + o.2)) (w i) (w (i.1 + o.1, i.2 + o.2)) o]
        exact ih _
      · rw [if_neg h, if_neg h]; exact ih _
  exact aux offs 0

/-- With a zero dashpot coefficient the sequential in-place pass applies, at
every node it visits exactly once, the same update the buffered pass would. -/
theorem springPassSeq_eval (P : Params) (hdp : P.dashpot_damping = 0)
    (offs : List (ℤ × ℤ)) (x : ℤ × ℤ → Vec3) :
    ∀ (order : List (ℤ × ℤ)), order.Nodup → ∀ (v : ℤ × ℤ → Vec3) (p : ℤ × ℤ),
      springPassSeq P offs x order v p =
        if p ∈ order then v p + P.dt • springForceAt P offs x v p else v p := by
  intro order
  induction order with
  | nil => intro _ v p; simp [springPassSeq]
  | cons i t ih =>
    intro hnd v p
    have hint : i ∉ t := (List.nodup_cons.mp hnd).1
    have hndt : t.Nodup := (List.nodup_cons.mp hnd).2
    have hstep : springPassSeq P offs x (i :: t) v =
        springPassSeq P offs x t (Function.update v i (v i + P.dt • springForceAt P offs x v i)) := by
      simp [springPassSeq]
    rw [hstep, ih hndt]
    set v2 := Function.update v i (v i + P.dt • springForceAt P offs x v i) with hv2
    by_cases hpt : p ∈ t
    · have hpi : p ≠ i := fun h => hint (h ▸ hpt)
      rw [if_pos hpt, if_pos (List.mem_cons_of_mem i hpt)]
      have h1 : v2 p = v p := Function.update_noteq hpi _ v
      rw [h1, springForceAt_vel_indep P hdp offs x v2 v]
    · rw [if_neg hpt]
      by_cases hpi : p = i
      · subst hpi
        rw [if_pos (List.mem_cons_self p t)]
        exact Function.update_same p _ v
      · rw [if_neg (by simp [hpi, hpt])]
        exact Function.update_noteq hpi _ v

/-- C1 (amended): if the dashpot damping coefficient is zero, the per-node
update depends only on the position snapshot (which the spring pass never
writes), so the in-place sequential spring pass coincides with the
double-buffered reference pass for every processing order that visits each
grid node exactly once. -/
theorem inPlaceSpringPass_eq_buffered_of_no_dashpot (P : Params)
    (offs : List (ℤ × ℤ)) (x v : ℤ × ℤ → Vec3) (order : List (ℤ × ℤ))
    (hdp : P.dashpot_damping = 0) (hnd : order.Nodup)
    (hcov : ∀ p, p ∈ order ↔ inGrid P.n p) :
    springPassSeq P offs x order v = springPassBuf P offs x v := by
  funext p
  rw [springPassSeq_eval P hdp offs x order hnd v p, springPassBuf]
  by_cases hp : inGrid P.n p
  · rw [if_pos ((hcov p).mpr hp), if_pos hp]
  · rw [if_neg (fun hc => hp ((hcov p).mp hc)), if_neg hp]

theorem Vec3.add_assoc_vec (a b c : Vec3) : a + b + c = a + (b + c) := by
  ext <;> simp <;> ring

@[simp] theorem springForceAt_nil (P : Params) (x v : ℤ × ℤ → Vec3) (i : ℤ × ℤ) :
    springForceAt P [] x v i = 0 := rfl

/-- The spring-force fold splits off its head contribution. -/
theorem springForceAt_cons (P : Params) (o : ℤ × ℤ) (t : List (ℤ × ℤ))
    (x v : ℤ × ℤ → Vec3) (i : ℤ × ℤ) :
    springForceAt P (o :: t) x v i =
      (if inGrid P.n (i.1 + o.1, i.2 + o.2) then
        springForceContrib P (x i) (x (i.1 + o.1, i.2 + o.2))
          (v i) (v (i.1 + o.1, i.2 + o.2)) o
      else 0) + springForceAt P t x v i := by
  have haux : ∀ (t2 : List (ℤ × ℤ)) (a : Vec3),
      t2.foldl (fun force off =>
        if inGrid P.n (i.1 + off.1, i.2 + off.2) then
          force + springForceContrib P (x i) (x (i.1 + off.1, i.2 + off.2))
            (v i) (v (i.1 + off.1, i.2 + off.2)) off
        else force) a =
      a + t2.foldl (fun force off =>
        if inGrid P.n (i.1 + off.1, i.2 + off.2) then
          force + springForceContrib P (x i) (x (i.1 + off.1, i.2 + off.2))
            (v i) (v (i.1 + off.1, i.2 + off.2)) off
        else force) 0 := by
    intro t2
    induction t2 with
    | nil => intro a; simp
    | cons o2 r ih =>
      intro a
      simp only [List.foldl_cons]
      by_cases h : inGrid P.n (i.1 + o2.1, i.2 + o2.2)
      · rw [if_pos h, if_pos h, ih, ih (0 + _), Vec3.zero_add_vec, Vec3.add_assoc_vec]
      · rw [if_neg h, if_neg h, ih, ih]
  unfold springForceAt
  simp only [List.foldl_cons]
  by_cases h : inGrid P.n (i.1 + o.1, i.2 + o.2)
  · rw [if_pos h, if_pos h, haux, Vec3.zero_add_vec]
  · rw [if_neg h, if_neg h]
    exact (Vec3.zero_add_vec _).symm

/-- When a neighbor pair sits exactly at its rest length, the elastic term
vanishes and the whole contribution reduces to the dashpot term written on
the separation vector itself (the two occurrences of `d` cancel the square
root of the norm). -/
theorem springForceContrib_rest (P : Params) (xi xj vi vj : Vec3) (off : ℤ × ℤ)
    (h : (xi - xj).dot (xi - xj) = (quad_size P * offNorm off) ^ 2)
    (h0 : (xi - xj).dot (xi - xj) ≠ 0) :
    springForceContrib P xi xj vi vj off =
      (-((vi - vj).dot (xi - xj) / ((xi - xj).dot (xi - xj))) *
        P.dashpot_damping * quad_size P) • (xi - xj) := by
  have hq : 0 ≤ quad_size P := by unfold quad_size; positivity
  have hod0 : 0 ≤ quad_size P * offNorm off := mul_nonneg hq (Real.sqrt_nonneg _)
  have hnorm : (xi - xj).norm = quad_size P * offNorm off := by
    rw [Vec3.norm, h, Real.sqrt_sq hod0]
  have hodne : quad_size P * offNorm off ≠ 0 := by
    intro hc
    apply h0
    rw [h, hc]
    ring
  have hnne : (xi - xj).norm ≠ 0 := by rw [hnorm]; exact hodne
  have hnsq : (xi - xj).norm * (xi - xj).norm = (xi - xj).dot (xi - xj) := by
    have := Vec3.sq_norm (xi - xj)
    nlinarith [this]
  unfold springForceContrib
  simp only [hnorm]
  have h1 : -P.spring_Y * (quad_size P * offNorm off / (quad_size P * offNorm off) - 1) = 0 := by
    field_simp
  rw [h1, Vec3.zero_smul_vec, Vec3.zero_add_vec]
  rw [Vec3.normalized, hnorm, Vec3.dot_smul_right, Vec3.smul_smul_vec]
  congr 1
  rw [h]
  field_simp
  left
  ring

/-- The 8-offset bending topology as a literal list. -/
theorem bendingOffsets_eq : initialize_spring_offsets true =
    [(-1, -1), (-1, 0), (-1, 1), (0, -1), (0, 1), (1, -1), (1, 0), (1, 1)] := by decide

/-- The 12-offset structural topology as a literal list. -/
theorem fullOffsets_eq : initialize_spring_offsets false =
    [(-2, 0), (-1, -1), (-1, 0), (-1, 1), (0, -2), (0, -1), (0, 1), (0, 2),
     (1, -1), (1, 0), (1, 1), (2, 0)] := by decide

theorem rowMajor2_eq : rowMajor 2 = [(0, 0), (0, 1), (1, 0), (1, 1)] := by decide

theorem P2_n : (physsimParamsN 2).n = 2 := rfl

theorem P2_q : quad_size (physsimParamsN 2) = 1 / 2 := by
  unfold quad_size
  rw [P2_n]
  norm_num

theorem P2_dt : (physsimParamsN 2).dt = 1 / 50 := by
  show (4e-2 : ℝ) / ((2 : ℕ) : ℝ) = 1 / 50
  norm_num

theorem P2_dp : (physsimParamsN 2).dashpot_damping = 10000 := by
  show (1e4 : ℝ) = 10000
  norm_num

theorem offNorm_01 : offNorm ((0 : ℤ), (1 : ℤ)) = 1 := by
  simp [offNorm]

theorem offNorm_0m1 : offNorm ((0 : ℤ), (-1 : ℤ)) = 1 := by
  simp [offNorm]

theorem offNorm_10 : offNorm ((1 : ℤ), (0 : ℤ)) = 1 := by
  simp [offNorm]

theorem offNorm_11 : offNorm ((1 : ℤ), (1 : ℤ)) = Real.sqrt 2 := by
  norm_num [offNorm]

theorem offNorm_1m1 : offNorm ((1 : ℤ), (-1 : ℤ)) = Real.sqrt 2 := by
  norm_num [offNorm]

/-- Positions of the counterexample state: the exact rest lattice of a
2 x 2 grid with spacing quad_size = 1/2 (every spring at its rest length). -/
noncomputable def cexX : ℤ × ℤ → Vec3 :=
  fun p => ⟨(p.1 : ℝ) * (1 / 2), 0, (p.2 : ℝ) * (1 / 2)⟩

/-- Velocities of the counterexample state: node (0,0) moves with unit
z-velocity, all other nodes are at rest. -/
noncomputable def cexV : ℤ × ℤ → Vec3 :=
  fun p => if p = ((0 : ℤ), (0 : ℤ)) then ⟨0, 0, 1⟩ else ⟨0, 0, 0⟩

theorem cexX_00 : cexX ((0 : ℤ), (0 : ℤ)) = ⟨0, 0, 0⟩ := by
  simp [cexX]

theorem cexX_01 : cexX ((0 : ℤ), (1 : ℤ)) = ⟨0, 0, 1 / 2⟩ := by
  simp [cexX]

theorem cexX_10 : cexX ((1 : ℤ), (0 : ℤ)) = ⟨1 / 2, 0, 0⟩ := by
  simp [cexX]

theorem cexX_11 : cexX ((1 : ℤ), (1 : ℤ)) = ⟨1 / 2, 0, 1 / 2⟩ := by
  simp [cexX]

/-- Spring force on node (0,0) of the counterexample, read from the pre-pass
snapshot. -/
theorem cex_force_a :
    springForceAt (physsimParamsN 2) (initialize_spring_offsets true) cexX cexV
      ((0 : ℤ), (0 : ℤ)) = ⟨-2500, 0, -7500⟩ := by
  have hab : springForceContrib (physsimParamsN 2) (cexX ((0 : ℤ), (0 : ℤ)))
      (cexX ((0 : ℤ), (1 : ℤ))) ⟨0, 0, 1⟩ ⟨0, 0, 0⟩ ((0 : ℤ), (1 : ℤ)) = ⟨0, 0, -5000⟩ := by
    have h : (cexX ((0 : ℤ), (0 : ℤ)) - cexX ((0 : ℤ), (1 : ℤ))).dot
        (cexX ((0 : ℤ), (0 : ℤ)) - cexX ((0 : ℤ), (1 : ℤ))) =
        (quad_size (physsimParamsN 2) * offNorm ((0 : ℤ), (1 : ℤ))) ^ 2 := by
      rw [P2_q, offNorm_01, cexX_00, cexX_01]
      norm_num [Vec3.dot]
    have h0 : (cexX ((0 : ℤ), (0 : ℤ)) - cexX ((0 : ℤ), (1 : ℤ))).dot
        (cexX ((0 : ℤ), (0 : ℤ)) - cexX ((0 : ℤ), (1 : ℤ))) ≠ 0 := by
      rw [cexX_00, cexX_01]
      norm_num [Vec3.dot]
    rw [springForceContrib_rest _ _ _ _ _ _ h h0, cexX_00, cexX_01, P2_q, P2_dp]
    ext <;> norm_num [Vec3.dot]
  have hac : springForceContrib (physsimParamsN 2) (cexX ((0 : ℤ), (0 : ℤ)))
      (cexX ((1 : ℤ), (0 : ℤ))) ⟨0, 0, 1⟩ ⟨0, 0, 0⟩ ((1 : ℤ), (0 : ℤ)) = ⟨0, 0, 0⟩ := by
    have h : (cexX ((0 : ℤ), (0 : ℤ)) - cexX ((1 : ℤ), (0 : ℤ))).dot
        (cexX ((0 : ℤ), (0 : ℤ)) - cexX ((1 : ℤ), (0 : ℤ))) =
        (quad_size (physsimParamsN 2) * offNorm ((1 : ℤ), (0 : ℤ))) ^ 2 := by
      rw [P2_q, offNorm_10, cexX_00, cexX_10]
      norm_num [Vec3.dot]
    have h0 : (cexX ((0 : ℤ), (0 : ℤ)) - cexX ((1 : ℤ), (0 : ℤ))).dot
        (cexX ((0 : ℤ), (0 : ℤ)) - cexX ((1 : ℤ), (0 : ℤ))) ≠ 0 := by
      rw [cexX_00, cexX_10]
      norm_num [Vec3.dot]
    rw [springForceContrib_rest _ _ _ _ _ _ h h0, cexX_00, cexX_10]
    ext <;> norm_num [Vec3.dot]
  have had : springForceContrib (physsimParamsN 2) (cexX ((0 : ℤ), (0 : ℤ)))
      (cexX ((1 : ℤ), (1 : ℤ))) ⟨0, 0, 1⟩ ⟨0, 0, 0⟩ ((1 : ℤ), (1 : ℤ)) = ⟨-2500, 0, -2500⟩ := by
    have h : (cexX ((0 : ℤ), (0 : ℤ)) - cexX ((1 : ℤ), (1 : ℤ))).dot
        (cexX ((0 : ℤ), (0 : ℤ)) - cexX ((1 : ℤ), (1 : ℤ))) =
        (quad_size (physsimParamsN 2) * offNorm ((1 : ℤ), (1 : ℤ))) ^ 2 := by
      rw [P2_q, offNorm_11, cexX_00, cexX_11]
      rw [mul_pow, Real.sq_sqrt (by norm_num : (0 : ℝ) ≤ 2)]
      norm_num [Vec3.dot]
    have h0 : (cexX ((0 : ℤ), (0 : ℤ)) - cexX ((1 : ℤ), (1 : ℤ))).dot
        (cexX ((0 : ℤ), (0 : ℤ)) - cexX ((1 : ℤ), (1 : ℤ))) ≠ 0 := by
      rw [cexX_00, cexX_11]
      norm_num [Vec3.dot]
    rw [springForceContrib_rest _ _ _ _ _ _ h h0, cexX_00, cexX_11, P2_q, P2_dp]
    ext <;> norm_num [Vec3.dot]
  rw [bendingOffsets_eq]
  simp only [springForceAt_cons, springForceAt_nil]
  norm_num [inGrid, P2_n, cexV, -Prod.mk_zero_zero, -Prod.mk_one_one]
  rw [hab, hac, had]
  ext <;> norm_num

/-- Spring force on node (0,1) of the counterexample, read from the pre-pass
snapshot (the double-buffered reading). -/
theorem cex_force_b_buf :
    springForceAt (physsimParamsN 2) (initialize_spring_offsets true) cexX cexV
      ((0 : ℤ), (1 : ℤ)) = ⟨0, 0, 5000⟩ := by
  have hba : springForceContrib (physsimParamsN 2) (cexX ((0 : ℤ), (1 : ℤ)))
      (cexX ((0 : ℤ), (0 : ℤ))) ⟨0, 0, 0⟩ ⟨0, 0, 1⟩ ((0 : ℤ), (-1 : ℤ)) = ⟨0, 0, 5000⟩ := by
    have h : (cexX ((0 : ℤ), (1 : ℤ)) - cexX ((0 : ℤ), (0 : ℤ))).dot
        (cexX ((0 : ℤ), (1 : ℤ)) - cexX ((0 : ℤ), (0 : ℤ))) =
        (quad_size (physsimParamsN 2) * offNorm ((0 : ℤ), (-1 : ℤ))) ^ 2 := by
      rw [P2_q, offNorm_0m1, cexX_00, cexX_01]
      norm_num [Vec3.dot]
    have h0 : (cexX ((0 : ℤ), (1 : ℤ)) - cexX ((0 : ℤ), (0 : ℤ))).dot
        (cexX ((0 : ℤ), (1 : ℤ)) - cexX ((0 : ℤ), (0 : ℤ))) ≠ 0 := by
      rw [cexX_00, cexX_01]
      norm_num [Vec3.dot]
    rw [springForceContrib_rest _ _ _ _ _ _ h h0, cexX_00, cexX_01, P2_q, P2_dp]
    ext <;> norm_num [Vec3.dot]
  have hbc : springForceContrib (physsimParamsN 2) (cexX ((0 : ℤ), (1 : ℤ)))
      (cexX ((1 : ℤ), (0 : ℤ))) ⟨0, 0, 0⟩ ⟨0, 0, 0⟩ ((1 : ℤ), (-1 : ℤ)) = ⟨0, 0, 0⟩ := by
    have h : (cexX ((0 : ℤ), (1 : ℤ)) - cexX ((1 : ℤ), (0 : ℤ))).dot
        (cexX ((0 : ℤ), (1 : ℤ)) - cexX ((1 : ℤ), (0 : ℤ))) =
        (quad_size (physsimParamsN 2) * offNorm ((1 : ℤ), (-1 : ℤ))) ^ 2 := by
      rw [P2_q, offNorm_1m1, cexX_01, cexX_10]
      rw [mul_pow, Real.sq_sqrt (by norm_num : (0 : ℝ) ≤ 2)]
      norm_num [Vec3.dot]
    have h0 : (cexX ((0 : ℤ), (1 : ℤ)) - cexX ((1 : ℤ), (0 : ℤ))).dot
        (cexX ((0 : ℤ), (1 : ℤ)) - cexX ((1 : ℤ), (0 : ℤ))) ≠ 0 := by
      rw [cexX_01, cexX_10]
      norm_num [Vec3.dot]
    rw [springForceContrib_rest _ _ _ _ _ _ h h0, cexX_01, cexX_10]
    ext <;> norm_num [Vec3.dot]
  have hbd : springForceContrib (physsimParamsN 2) (cexX ((0 : ℤ), (1 : ℤ)))
      (cexX ((1 : ℤ), (1 : ℤ))) ⟨0, 0, 0⟩ ⟨0, 0, 0⟩ ((1 : ℤ), (0 : ℤ)) = ⟨0, 0, 0⟩ := by
    have h : (cexX ((0 : ℤ), (1 : ℤ)) - cexX ((1 : ℤ), (1 : ℤ))).dot
        (cexX ((0 : ℤ), (1 : ℤ)) - cexX ((1 : ℤ), (1 : ℤ))) =
        (quad_size (physsimParamsN 2) * offNorm ((1 : ℤ), (0 : ℤ))) ^ 2 := by
      rw [P2_q, offNorm_10, cexX_01, cexX_11]
      norm_num [Vec3.dot]
    have h0 : (cexX ((0 : ℤ), (1 : ℤ)) - cexX ((1 : ℤ), (1 : ℤ))).dot
        (cexX ((0 : ℤ), (1 : ℤ)) - cexX ((1 : ℤ), (1 : ℤ))) ≠ 0 := by
      rw [cexX_01, cexX_11]
      norm_num [Vec3.dot]
    rw [springForceContrib_rest _ _ _ _ _ _ h h0, cexX_01, cexX_11]
    ext <;> norm_num [Vec3.dot]
  rw [bendingOffsets_eq]
  simp only [springForceAt_cons, springForceAt_nil]
  norm_num [inGrid, P2_n, cexV, -Prod.mk_zero_zero, -Prod.mk_one_one]
  rw [hba, hbc, hbd]
  ext <;> norm_num

/-- Spring force on node (0,1) of the counterexample after node (0,0) has
already committed its in-place update: the neighbor velocity read differs
from the snapshot and so does the dashpot force. -/
theorem cex_force_b_seq :
    springForceAt (physsimParamsN 2) (initialize_spring_offsets true) cexX
      (Function.update cexV ((0 : ℤ), (0 : ℤ)) ⟨-50, 0, -149⟩)
      ((0 : ℤ), (1 : ℤ)) = ⟨0, 0, -745000⟩ := by
  have hba : springForceContrib (physsimParamsN 2) (cexX ((0 : ℤ), (1 : ℤ)))
      (cexX ((0 : ℤ), (0 : ℤ))) ⟨0, 0, 0⟩ ⟨-50, 0, -149⟩ ((0 : ℤ), (-1 : ℤ)) =
      ⟨0, 0, -745000⟩ := by
    have h : (cexX ((0 : ℤ), (1 : ℤ)) - cexX ((0 : ℤ), (0 : ℤ))).dot
        (cexX ((0 : ℤ), (1 : ℤ)) - cexX ((0 : ℤ), (0 : ℤ))) =
        (quad_size (physsimParamsN 2) * offNorm ((0 : ℤ), (-1 : ℤ))) ^ 2 := by
      rw [P2_q, offNorm_0m1, cexX_00, cexX_01]
      norm_num [Vec3.dot]
    have h0 : (cexX ((0 : ℤ), (1 : ℤ)) - cexX ((0 : ℤ), (0 : ℤ))).dot
        (cexX ((0 : ℤ), (1 : ℤ)) - cexX ((0 : ℤ), (0 : ℤ))) ≠ 0 := by
      rw [cexX_00, cexX_01]
      norm_num [Vec3.dot]
    rw [springForceContrib_rest _ _ _ _ _ _ h h0, cexX_00, cexX_01, P2_q, P2_dp]
    ext <;> norm_num [Vec3.dot]
  have hbc : springForceContrib (physsimParamsN 2) (cexX ((0 : ℤ), (1 : ℤ)))
      (cexX ((1 : ℤ), (0 : ℤ))) ⟨0, 0, 0⟩ ⟨0, 0, 0⟩ ((1 : ℤ), (-1 : ℤ)) = ⟨0, 0, 0⟩ := by
    have h : (cexX ((0 : ℤ), (1 : ℤ)) - cexX ((1 : ℤ), (0 : ℤ))).dot
        (cexX ((0 : ℤ), (1 : ℤ)) - cexX ((1 : ℤ), (0 : ℤ))) =
        (quad_size (physsimParamsN 2) * offNorm ((1 : ℤ), (-1 : ℤ))) ^ 2 := by
      rw [P2_q, offNorm_1m1, cexX_01, cexX_10]
      rw [mul_pow, Real.sq_sqrt (by norm_num : (0 : ℝ) ≤ 2)]
      norm_num [Vec3.dot]
    have h0 : (cexX ((0 : ℤ), (1 : ℤ)) - cexX ((1 : ℤ), (0 : ℤ))).dot
        (cexX ((0 : ℤ), (1 : ℤ)) - cexX ((1 : ℤ), (0 : ℤ))) ≠ 0 := by
      rw [cexX_01, cexX_10]
      norm_num [Vec3.dot]
    rw [springForceContrib_rest _ _ _ _ _ _ h h0, cexX_01, cexX_10]
    ext <;> norm_num [Vec3.dot]
  have hbd : springForceContrib (physsimParamsN 2) (cexX ((0 : ℤ), (1 : ℤ)))
      (cexX ((1 : ℤ), (1 : ℤ))) ⟨0, 0, 0⟩ ⟨0, 0, 0⟩ ((1 : ℤ), (0 : ℤ)) = ⟨0, 0, 0⟩ := by
    have h : (cexX ((0 : ℤ), (1 : ℤ)) - cexX ((1 : ℤ), (1 : ℤ))).dot
        (cexX ((0 : ℤ), (1 : ℤ)) - cexX ((1 : ℤ), (1 : ℤ))) =
        (quad_size (physsimParamsN 2) * offNorm ((1 : ℤ), (0 : ℤ))) ^ 2 := by
      rw [P2_q, offNorm_10, cexX_01, cexX_11]
      norm_num [Vec3.dot]
    have h0 : (cexX ((0 : ℤ), (1 : ℤ)) - cexX ((1 : ℤ), (1 : ℤ))).dot
        (cexX ((0 : ℤ), (1 : ℤ)) - cexX ((1 : ℤ), (1 : ℤ))) ≠ 0 := by
      rw [cexX_01, cexX_11]
      norm_num [Vec3.dot]
    rw [springForceContrib_rest _ _ _ _ _ _ h h0, cexX_01, cexX_11]
    ext <;> norm_num [Vec3.dot]
  rw [bendingOffsets_eq]
  simp only [springForceAt_cons, springForceAt_nil]
  norm_num [inGrid, P2_n, cexV, Function.update_apply, Prod.mk.injEq,
    -Prod.mk_zero_zero, -Prod.mk_one_one]
  rw [hba, hbc, hbd]
  ext <;> norm_num

/-- C1 is false as stated: on a 2 x 2 rest lattice with a single moving node,
the in-place sequential spring pass (row-major order, as the kernel loop is
written) and the double-buffered reference pass produce different updated
velocity fields, because node (0,1) reads the velocity of node (0,0) after
the latter has already committed its update. -/
theorem C1_counterexample :
    springPassSeq (physsimParamsN 2) (initialize_spring_offsets true) cexX (rowMajor 2) cexV ≠
      springPassBuf (physsimParamsN 2) (initialize_spring_offsets true) cexX cexV := by
  intro hEq
  have hb := congrFun hEq ((0 : ℤ), (1 : ℤ))
  have hbuf : springPassBuf (physsimParamsN 2) (initialize_spring_offsets true) cexX cexV
      ((0 : ℤ), (1 : ℤ)) = ⟨0, 0, 100⟩ := by
    rw [springPassBuf, if_pos (by decide : inGrid (physsimParamsN 2).n ((0 : ℤ), (1 : ℤ)))]
    rw [cex_force_b_buf, P2_dt]
    ext <;> norm_num [cexV]
  have hseq : springPassSeq (physsimParamsN 2) (initialize_spring_offsets true) cexX
      (rowMajor 2) cexV ((0 : ℤ), (1 : ℤ)) = ⟨0, 0, -14900⟩ := by
    rw [rowMajor2_eq]
    simp only [springPassSeq, List.foldl_cons, List.foldl_nil]
    have hva : cexV ((0 : ℤ), (0 : ℤ)) + (physsimParamsN 2).dt •
        springForceAt (physsimParamsN 2) (initialize_spring_offsets true) cexX cexV
          ((0 : ℤ), (0 : ℤ)) = ⟨-50, 0, -149⟩ := by
      rw [cex_force_a, P2_dt]
      ext <;> norm_num [cexV]
    rw [hva]
    have hvb : Function.update cexV ((0 : ℤ), (0 : ℤ)) (⟨-50, 0, -149⟩ : Vec3)
          ((0 : ℤ), (1 : ℤ)) + (physsimParamsN 2).dt •
        springForceAt (physsimParamsN 2) (initialize_spring_offsets true) cexX
          (Function.update cexV ((0 : ℤ), (0 : ℤ)) ⟨-50, 0, -149⟩)
          ((0 : ℤ), (1 : ℤ)) = ⟨0, 0, -14900⟩ := by
      rw [cex_force_b_seq, P2_dt,
        Function.update_noteq (by decide : ((0 : ℤ), (1 : ℤ)) ≠ ((0 : ℤ), (0 : ℤ)))]
      ext <;> norm_num [cexV]
    rw [hvb]
    rw [Function.update_noteq (by decide : ((0 : ℤ), (1 : ℤ)) ≠ ((1 : ℤ), (1 : ℤ))),
      Function.update_noteq (by decide : ((0 : ℤ), (1 : ℤ)) ≠ ((1 : ℤ), (0 : ℤ))),
      Function.update_same]
  rw [hseq, hbuf] at hb
  exact absurd (congrArg Vec3.z hb) (by norm_num)

theorem mem_rowMajor (n : ℕ) (p : ℤ × ℤ) : p ∈ rowMajor n ↔ inGrid n p := by
  cases p with
  | mk a b =>
    have hg : inGrid n (a, b) ↔ (0 ≤ a ∧ a < (n : ℤ) ∧ 0 ≤ b ∧ b < (n : ℤ)) := Iff.rfl
    rw [hg]
    constructor
    · intro hmem
      rcases List.mem_flatMap.mp hmem with ⟨i, hi, hmem2⟩
      rcases List.mem_map.mp hmem2 with ⟨j, hj, hEq⟩
      rw [List.mem_range] at hi hj
      injection hEq with e1 e2
      subst e1
      subst e2
      exact ⟨by omega, by omega, by omega, by omega⟩
    · rintro ⟨h1, h2, h3, h4⟩
      apply List.mem_flatMap.mpr
      refine ⟨a.toNat, List.mem_range.mpr (by omega), ?_⟩
      apply List.mem_map.mpr
      refine ⟨b.toNat, List.mem_range.mpr (by omega), ?_⟩
      have ha : (a.toNat : ℤ) = a := by omega
      have hb : (b.toNat : ℤ) = b := by omega
      rw [ha, hb]

/-- The physsim parameters at n = 2 with the dashpot coefficient set to
zero, used to exercise the amended claim C1. -/
noncomputable def noDashpotParams : Params := ⟨2, ⟨0, -9.8, 0⟩, 3e4, 0, 1, 0.3, 4e-2 / 2⟩

/-- Witness for the amended claim C1 at a concrete configuration. -/
theorem C1_amended_witness :
    springPassSeq noDashpotParams (initialize_spring_offsets true) cexX (rowMajor 2) cexV =
      springPassBuf noDashpotParams (initialize_spring_offsets true) cexX cexV := by
  apply inPlaceSpringPass_eq_buffered_of_no_dashpot
  · rfl
  · decide
  · intro p
    exact mem_rowMajor 2 p

theorem Vec3.sub_eq_zero_iff (a b : Vec3) : a - b = 0 ↔ a = b := by
  constructor
  · intro h
    ext
    · have hx := congrArg Vec3.x h; simp at hx; linarith
    · have hy := congrArg Vec3.y h; simp at hy; linarith
    · have hz := congrArg Vec3.z h; simp at hz; linarith
  · intro h; subst h; ext <;> simp

theorem Vec3.norm_axis_x (a : ℝ) : (Vec3.mk a 0 0).norm = |a| := by
  rw [Vec3.norm]
  simp only [Vec3.dot, Vec3.mk_x, Vec3.mk_y, Vec3.mk_z, mul_zero, add_zero]
  exact Real.sqrt_mul_self_eq_abs a

theorem Vec3.sub_zero_mk (a : Vec3) : a - Vec3.mk 0 0 0 = a := by
  ext <;> simp

/-- Sphere-collision response applied to one node's velocity, from
p.clothes.py lines 105-108 (identical in 3.0physsim.py lines 160-164):
if `norm(x[i] - ball_center) <= ball_radius`, subtract
`min(v.dot(normal), 0) * normal` with `normal` the outward unit vector. -/
noncomputable def collisionStep (P : Params) (ball_center xi vi : Vec3) : Vec3 :=
  let offset_to_center := xi - ball_center
  if offset_to_center.norm ≤ P.ball_radius then
    vi - (min (vi.dot offset_to_center.normalized) 0) • offset_to_center.normalized
  else vi

/-- The third pass of p.clothes.py (lines 98-110) for one node: scale the
velocity by `exp(-drag_damping*dt)`; if dragging and this node is the picked
node, overwrite the velocity with `(drag_pos - x)/dt * 0.5`; then apply the
sphere-collision test (a separate `if`, not an else branch); finally
integrate the position. -/
noncomputable def thirdPassNodeClothes (P : Params) (dragging : Bool)
    (picked_node : ℤ × ℤ) (drag_pos ball_center : Vec3) (i : ℤ × ℤ)
    (xi vi : Vec3) : Vec3 × Vec3 :=
  let v1 := Real.exp (-(P.drag_damping * P.dt)) • vi
  let v2 := if dragging = true ∧ i = picked_node then
      (0.5 : ℝ) • ((1 / P.dt) • (drag_pos - xi))
    else v1
  let v3 := collisionStep P ball_center xi v2
  (xi + P.dt • v3, v3)

/-- The third pass of 3.0physsim.py (lines 158-168) for one node: velocity
decay, sphere collision, position integration (this script has no drag). -/
noncomputable def thirdPassNodePhys (P : Params) (ball_center : Vec3)
    (xi vi : Vec3) : Vec3 × Vec3 :=
  let v1 := Real.exp (-(P.drag_damping * P.dt)) • vi
  let v2 := collisionStep P ball_center xi v1
  (xi + P.dt • v2, v2)

/-- The third pass exactly as claim C2 words it: the sphere-collision test is
the else branch of the drag check, so a dragged node is never collision
tested in that substep. -/
noncomputable def specThirdPassNodeDragExcludesCollision (P : Params) (dragging : Bool)
    (picked_node : ℤ × ℤ) (drag_pos ball_center : Vec3) (i : ℤ × ℤ)
    (xi vi : Vec3) : Vec3 × Vec3 :=
  let v1 := Real.exp (-(P.drag_damping * P.dt)) • vi
  let vf := if dragging = true ∧ i = picked_node then
      (0.5 : ℝ) • ((1 / P.dt) • (drag_pos - xi))
    else collisionStep P ball_center xi v1
  (xi + P.dt • vf, vf)

/-- The third pass as the amended claim C2 words it: scale by the exponential
decay, then override the velocity if this node is being dragged, then apply
the sphere-collision test unconditionally (also to the dragged node), then
integrate the position. -/
noncomputable def specThirdPassNodeAmended (P : Params) (dragging : Bool)
    (picked_node : ℤ × ℤ) (drag_pos ball_center : Vec3) (i : ℤ × ℤ)
    (xi vi : Vec3) : Vec3 × Vec3 :=
  let scaled := Real.exp (-(P.drag_damping * P.dt)) • vi
  let afterDrag := if dragging = true ∧ i = picked_node then
      (0.5 : ℝ) • ((1 / P.dt) • (drag_pos - xi))
    else scaled
  let afterCollision := collisionStep P ball_center xi afterDrag
  (xi + P.dt • afterCollision, afterCollision)

theorem CP_dt : clothesParams.dt = 1 / 6400 := by
  show (2e-2 : ℝ) / ((128 : ℕ) : ℝ) = 1 / 6400
  norm_num

theorem CP_radius : clothesParams.ball_radius = 0.3 := rfl

theorem norm_fifth : (Vec3.mk (1 / 5 : ℝ) 0 0).norm = 1 / 5 := by
  rw [Vec3.norm_axis_x]
  norm_num

theorem normalized_fifth : (Vec3.mk (1 / 5 : ℝ) 0 0).normalized = ⟨1, 0, 0⟩ := by
  rw [Vec3.normalized, norm_fifth]
  ext <;> norm_num

/-- C2 (amended): per node, the third pass of p.clothes.py scales the
velocity by `exp(-drag_damping*dt)`, overrides it with
`(drag_pos - x)/dt * 0.5` when this node is the dragged one, then applies the
sphere-collision projection unconditionally (also to a dragged node, since
the collision test is a separate `if`, not an else branch of the drag
check), and finally integrates `x += dt * v`. -/
theorem thirdPass_eq_amended_spec (P : Params) (dragging : Bool)
    (picked_node : ℤ × ℤ) (drag_pos ball_center : Vec3) (i : ℤ × ℤ)
    (xi vi : Vec3) :
    thirdPassNodeClothes P dragging picked_node drag_pos ball_center i xi vi =
      specThirdPassNodeAmended P dragging picked_node drag_pos ball_center i xi vi := rfl

/-- C2 is false as stated: for the dragged node placed inside the collider
with the drag target at the collider center, the code (collision applied
after the drag override) removes the inward velocity, while the claimed
else-branch semantics keeps the full override velocity. -/
theorem C2_counterexample :
    thirdPassNodeClothes clothesParams true ((0 : ℤ), (0 : ℤ)) ⟨0, 0, 0⟩ ⟨0, 0, 0⟩
        ((0 : ℤ), (0 : ℤ)) ⟨1 / 5, 0, 0⟩ ⟨0, 0, 0⟩ ≠
      specThirdPassNodeDragExcludesCollision clothesParams true ((0 : ℤ), (0 : ℤ))
        ⟨0, 0, 0⟩ ⟨0, 0, 0⟩ ((0 : ℤ), (0 : ℤ)) ⟨1 / 5, 0, 0⟩ ⟨0, 0, 0⟩ := by
  have hcond : True ∧ True := ⟨trivial, trivial⟩
  have hov : (0.5 : ℝ) • ((1 / clothesParams.dt) •
      ((⟨0, 0, 0⟩ : Vec3) - ⟨1 / 5, 0, 0⟩)) = ⟨-640, 0, 0⟩ := by
    rw [CP_dt]
    ext <;> norm_num
  have hsub : (Vec3.mk (1 / 5 : ℝ) 0 0) - ⟨0, 0, 0⟩ = ⟨1 / 5, 0, 0⟩ := Vec3.sub_zero_mk _
  have hcol : collisionStep clothesParams ⟨0, 0, 0⟩ ⟨1 / 5, 0, 0⟩ ⟨-640, 0, 0⟩ =
      ⟨0, 0, 0⟩ := by
    simp only [collisionStep]
    rw [hsub, norm_fifth, if_pos (by rw [CP_radius]; norm_num), normalized_fifth]
    rw [show (Vec3.mk (-640 : ℝ) 0 0).dot ⟨1, 0, 0⟩ = -640 by norm_num [Vec3.dot]]
    rw [min_eq_left (by norm_num : (-640 : ℝ) ≤ 0)]
    ext <;> norm_num
  have hcode : thirdPassNodeClothes clothesParams true ((0 : ℤ), (0 : ℤ)) ⟨0, 0, 0⟩
      ⟨0, 0, 0⟩ ((0 : ℤ), (0 : ℤ)) ⟨1 / 5, 0, 0⟩ ⟨0, 0, 0⟩ =
      (⟨1 / 5, 0, 0⟩, ⟨0, 0, 0⟩) := by
    simp only [thirdPassNodeClothes]
    rw [if_pos hcond, hov, hcol]
    refine Prod.ext ?_ rfl
    ext <;> norm_num
  have hclaim : specThirdPassNodeDragExcludesCollision clothesParams true
      ((0 : ℤ), (0 : ℤ)) ⟨0, 0, 0⟩ ⟨0, 0, 0⟩ ((0 : ℤ), (0 : ℤ)) ⟨1 / 5, 0, 0⟩
      ⟨0, 0, 0⟩ = (⟨1 / 10, 0, 0⟩, ⟨-640, 0, 0⟩) := by
    simp only [specThirdPassNodeDragExcludesCollision]
    rw [if_pos hcond, hov, CP_dt]
    refine Prod.ext ?_ ?_
    · ext <;> norm_num
    · rfl
  intro h
  rw [hcode, hclaim] at h
  have hcontr := congrArg (fun r => (Prod.snd r).x) h
  norm_num at hcontr

/-- C6: for a node strictly inside the collider test (position within the
radius and distinct from the center), the velocity left by the collision
handling step has nonnegative dot with the outward unit normal. -/
theorem collision_dot_normal_nonneg (P : Params) (ball_center xi vi : Vec3)
    (hne : xi ≠ ball_center) (hin : (xi - ball_center).norm ≤ P.ball_radius) :
    0 ≤ (collisionStep P ball_center xi vi).dot (xi - ball_center).normalized := by
  have hw : xi - ball_center ≠ 0 := fun h => hne ((Vec3.sub_eq_zero_iff xi ball_center).mp h)
  simp only [collisionStep]
  rw [if_pos hin, Vec3.dot_sub_left, Vec3.dot_smul_left,
    Vec3.dot_normalized_self _ hw]
  rcases le_or_lt (vi.dot (xi - ball_center).normalized) 0 with h | h
  · rw [min_eq_left h]; nlinarith
  · rw [min_eq_right (le_of_lt h)]; nlinarith

/-- Witness for C6 at a concrete node inside the collider. -/
theorem collision_dot_normal_nonneg_witness :
    0 ≤ (collisionStep clothesParams ⟨0, 0, 0⟩ ⟨1 / 5, 0, 0⟩ ⟨-1, 0, 0⟩).dot
      ((Vec3.mk (1 / 5 : ℝ) 0 0) - ⟨0, 0, 0⟩).normalized := by
  apply collision_dot_normal_nonneg
  · intro h
    have := congrArg Vec3.x h
    norm_num at this
  · rw [Vec3.sub_zero_mk, norm_fifth, CP_radius]
    norm_num

/-- initialize_mass_points (p.clothes.py lines 37-46, same in 3.0physsim.py):
one shared random offset `(rnd1 - 0.5, rnd2 - 0.5) * 0.1` built from two raw
samples of `ti.random()` (passed here as parameters), every node placed at
`[i*quad_size - 0.5 + off0, 0.6, j*quad_size - 0.5 + off1]`, zero velocity. -/
noncomputable def initialize_mass_points (n : ℕ) (rnd : ℝ × ℝ) :
    (ℤ × ℤ → Vec3) × (ℤ × ℤ → Vec3) :=
  let random_offset : ℝ × ℝ := ((rnd.1 - 0.5) * 0.1, (rnd.2 - 0.5) * 0.1)
  (fun p => ⟨(p.1 : ℝ) * (1 / (n : ℝ)) - 0.5 + random_offset.1, 0.6,
             (p.2 : ℝ) * (1 / (n : ℝ)) - 0.5 + random_offset.2⟩,
   fun _ => ⟨0, 0, 0⟩)

/-- The mutable Taichi fields of p.clothes.py that a substep can see:
positions, velocities, the ball center field, the drag-state fields, and the
static mesh buffers. (ball_radius and the offset list are module-level
constants, modelled as parameters.) -/
structure SimState where
  x : ℤ × ℤ → Vec3
  v : ℤ × ℤ → Vec3
  ball_center : Vec3
  dragging : Bool
  picked_node : ℤ × ℤ
  drag_pos : Vec3
  indices : ℕ → ℤ
  colors : ℕ → Vec3

/-- The pinning loop closing the substep of p.clothes.py (lines 111-113):
`for i in range(n): x[i, n-1] = [i*quad_size - 0.5, 0.6, 0.5]; v[i, n-1] = 0`. -/
noncomputable def pinPass (P : Params) (xv : (ℤ × ℤ → Vec3) × (ℤ × ℤ → Vec3)) :
    (ℤ × ℤ → Vec3) × (ℤ × ℤ → Vec3) :=
  (List.range P.n).foldl (fun st (i : ℕ) =>
    (Function.update st.1 ((i : ℤ), (P.n : ℤ) - 1)
        ⟨(i : ℝ) * quad_size P - 0.5, 0.6, 0.5⟩,
     Function.update st.2 ((i : ℤ), (P.n : ℤ) - 1) ⟨0, 0, 0⟩)) xv

/-- One substep of p.clothes.py (lines 79-113): gravity pass, in-place
sequential spring pass in row-major order, per-node third pass
(damping / drag override / collision / integration), then the boundary pin.
Only the position and velocity fields are written. -/
noncomputable def clothesSubstep (P : Params) (offs : List (ℤ × ℤ)) (s : SimState) :
    SimState :=
  let v1 := fun i => if inGrid P.n i then s.v i + P.dt • P.gravity else s.v i
  let v2 := springPassSeq P offs s.x (rowMajor P.n) v1
  let x3 := fun i => if inGrid P.n i then
      (thirdPassNodeClothes P s.dragging s.picked_node s.drag_pos s.ball_center
        i (s.x i) (v2 i)).1
    else s.x i
  let v3 := fun i => if inGrid P.n i then
      (thirdPassNodeClothes P s.dragging s.picked_node s.drag_pos s.ball_center
        i (s.x i) (v2 i)).2
    else v2 i
  let pinned := pinPass P (x3, v3)
  { s with x := pinned.1, v := pinned.2 }

theorem pinFold_not_mem (P : Params) :
    ∀ (L : List ℕ) (xv : (ℤ × ℤ → Vec3) × (ℤ × ℤ → Vec3)) (q : ℤ × ℤ),
      (∀ i ∈ L, q ≠ ((i : ℤ), (P.n : ℤ) - 1)) →
      (L.foldl (fun st (i : ℕ) =>
        (Function.update st.1 ((i : ℤ), (P.n : ℤ) - 1)
            ⟨(i : ℝ) * quad_size P - 0.5, 0.6, 0.5⟩,
         Function.update st.2 ((i : ℤ), (P.n : ℤ) - 1) ⟨0, 0, 0⟩)) xv).1 q = xv.1 q ∧
      (L.foldl (fun st (i : ℕ) =>
        (Function.update st.1 ((i : ℤ), (P.n : ℤ) - 1)
            ⟨(i : ℝ) * quad_size P - 0.5, 0.6, 0.5⟩,
         Function.update st.2 ((i : ℤ), (P.n : ℤ) - 1) ⟨0, 0, 0⟩)) xv).2 q = xv.2 q := by
  intro L
  induction L with
  | nil => intro xv q _; exact ⟨rfl, rfl⟩
  | cons a t ih =>
    intro xv q hq
    simp only [List.foldl_cons]
    have ht := ih (Function.update xv.1 ((a : ℤ), (P.n : ℤ) - 1)
        ⟨(a : ℝ) * quad_size P - 0.5, 0.6, 0.5⟩,
      Function.update xv.2 ((a : ℤ), (P.n : ℤ) - 1) ⟨0, 0, 0⟩) q
      (fun i hi => hq i (List.mem_cons_of_mem a hi))
    refine ⟨ht.1.trans ?_, ht.2.trans ?_⟩
    · exact Function.update_noteq (hq a (List.mem_cons_self a t)) _ _
    · exact Function.update_noteq (hq a (List.mem_cons_self a t)) _ _

theorem pinFold_mem (P : Params) :
    ∀ (L : List ℕ) (xv : (ℤ × ℤ → Vec3) × (ℤ × ℤ → Vec3)) (i : ℕ), i ∈ L →
      (L.foldl (fun st (i : ℕ) =>
        (Function.update st.1 ((i : ℤ), (P.n : ℤ) - 1)
            ⟨(i : ℝ) * quad_size P - 0.5, 0.6, 0.5⟩,
         Function.update st.2 ((i : ℤ), (P.n : ℤ) - 1) ⟨0, 0, 0⟩)) xv).1
        ((i : ℤ), (P.n : ℤ) - 1) = ⟨(i : ℝ) * quad_size P - 0.5, 0.6, 0.5⟩ ∧
      (L.foldl (fun st (i : ℕ) =>
        (Function.update st.1 ((i : ℤ), (P.n : ℤ) - 1)
            ⟨(i : ℝ) * quad_size P - 0.5, 0.6, 0.5⟩,
         Function.update st.2 ((i : ℤ), (P.n : ℤ) - 1) ⟨0, 0, 0⟩)) xv).2
        ((i : ℤ), (P.n : ℤ) - 1) = ⟨0, 0, 0⟩ := by
  intro L
  induction L with
  | nil => intro xv i hmem; cases hmem
  | cons a t ih =>
    intro xv i hmem
    simp only [List.foldl_cons]
    by_cases hit : i ∈ t
    · exact ih _ i hit
    · have hia : i = a := by
        rcases List.mem_cons.mp hmem with h | h
        · exact h
        · exact absurd h hit
      subst hia
      have hq : ∀ j ∈ t, ((i : ℤ), (P.n : ℤ) - 1) ≠ ((j : ℤ), (P.n : ℤ) - 1) := by
        intro j hj hEq
        have : (i : ℤ) = (j : ℤ) := congrArg Prod.fst hEq
        have : i = j := by omega
        exact hit (this ▸ hj)
      have hrest := pinFold_not_mem P t (Function.update xv.1 ((i : ℤ), (P.n : ℤ) - 1)
          ⟨(i : ℝ) * quad_size P - 0.5, 0.6, 0.5⟩,
        Function.update xv.2 ((i : ℤ), (P.n : ℤ) - 1) ⟨0, 0, 0⟩)
        ((i : ℤ), (P.n : ℤ) - 1) hq
      refine ⟨hrest.1.trans ?_, hrest.2.trans ?_⟩
      · exact Function.update_same _ _ _
      · exact Function.update_same _ _ _

/-- The pin loop runs last, so its values survive in the substep result. -/
theorem clothesSubstep_pin_value (P : Params) (offs : List (ℤ × ℤ))
    (s : SimState) (i : ℕ) (hi : i < P.n) :
    (clothesSubstep P offs s).x ((i : ℤ), (P.n : ℤ) - 1) =
      ⟨(i : ℝ) * quad_size P - 0.5, 0.6, 0.5⟩ ∧
    (clothesSubstep P offs s).v ((i : ℤ), (P.n : ℤ) - 1) = ⟨0, 0, 0⟩ :=
  pinFold_mem P (List.range P.n) _ i (List.mem_range.mpr hi)

/-- C4 (amended): after every substep of p.clothes.py, node (i, n-1) of the
pinned column carries zero velocity and the position
`(i*quad_size - 0.5, 0.6, 0.5)` written by the pin loop, regardless of what
the three physics passes computed; this pin position is the unjittered
lattice x-coordinate together with the constant z = 0.5, not the position
the node was given by initialize_mass_points. -/
theorem clothesSubstep_pins_edge_column (P : Params) (offs : List (ℤ × ℤ))
    (s : SimState) (i : ℕ) (hi : i < P.n) :
    (clothesSubstep P offs s).x ((i : ℤ), (P.n : ℤ) - 1) =
      ⟨(i : ℝ) * quad_size P - 0.5, 0.6, 0.5⟩ ∧
    (clothesSubstep P offs s).v ((i : ℤ), (P.n : ℤ) - 1) = ⟨0, 0, 0⟩ :=
  clothesSubstep_pin_value P offs s i hi

/-- Witness for the amended claim C4 at node (0, n-1) of the initialized
state. -/
theorem clothesSubstep_pins_edge_column_witness :
    (clothesSubstep clothesParams (initialize_spring_offsets false)
        (SimState.mk (initialize_mass_points 128 (0.5, 0.5)).1
          (initialize_mass_points 128 (0.5, 0.5)).2 ⟨0, 0, 0⟩ false (0, 0)
          ⟨0, 0, 0⟩ (fun _ => 0) (fun _ => ⟨0, 0, 0⟩))).x
        (((0 : ℕ) : ℤ), (clothesParams.n : ℤ) - 1) =
      ⟨((0 : ℕ) : ℝ) * quad_size clothesParams - 0.5, 0.6, 0.5⟩ ∧
    (clothesSubstep clothesParams (initialize_spring_offsets false)
        (SimState.mk (initialize_mass_points 128 (0.5, 0.5)).1
          (initialize_mass_points 128 (0.5, 0.5)).2 ⟨0, 0, 0⟩ false (0, 0)
          ⟨0, 0, 0⟩ (fun _ => 0) (fun _ => ⟨0, 0, 0⟩))).v
        (((0 : ℕ) : ℤ), (clothesParams.n : ℤ) - 1) = ⟨0, 0, 0⟩ :=
  clothesSubstep_pins_edge_column clothesParams (initialize_spring_offsets false)
    _ 0 (by decide)

/-- The p.clothes.py state right after initialization with both raw random
samples equal to 0.5 (zero jitter offset), ball at the origin, no drag. -/
noncomputable def initStateZeroJitter : SimState :=
  SimState.mk (initialize_mass_points 128 (0.5, 0.5)).1
    (initialize_mass_points 128 (0.5, 0.5)).2 ⟨0, 0, 0⟩ false (0, 0)
    ⟨0, 0, 0⟩ (fun _ => 0) (fun _ => ⟨0, 0, 0⟩)

/-- C4 is false as stated: after one substep from the freshly initialized
state, the pinned node (0, n-1) sits at the pin position
(z = 0.5), not at the position initialize_mass_points gave it
(z = 127/128 - 0.5), even with zero jitter. -/
theorem C4_counterexample :
    (clothesSubstep clothesParams (initialize_spring_offsets false)
        initStateZeroJitter).x ((0 : ℤ), (127 : ℤ)) ≠
      initStateZeroJitter.x ((0 : ℤ), (127 : ℤ)) := by
  have hpin := (clothesSubstep_pin_value clothesParams
    (initialize_spring_offsets false) initStateZeroJitter 0 (by decide)).1
  have hkey : ((((0 : ℕ) : ℤ)), (clothesParams.n : ℤ) - 1) = ((0 : ℤ), (127 : ℤ)) := by
    decide
  rw [hkey] at hpin
  intro h
  have hz := congrArg Vec3.z (hpin.symm.trans h)
  norm_num [initStateZeroJitter, initialize_mass_points] at hz

/-- C10: any number of substeps of p.clothes.py writes only the position and
velocity fields: the ball-center field, the drag-state fields and the static
index/color buffers are untouched (the collider radius and the spring offset
list are module-level constants, passed here as parameters that the substep
cannot write at all). -/
theorem clothesSubstep_frame (P : Params) (offs : List (ℤ × ℤ)) (s : SimState)
    (k : ℕ) :
    ((clothesSubstep P offs)^[k] s).ball_center = s.ball_center ∧
    ((clothesSubstep P offs)^[k] s).dragging = s.dragging ∧
    ((clothesSubstep P offs)^[k] s).picked_node = s.picked_node ∧
    ((clothesSubstep P offs)^[k] s).drag_pos = s.drag_pos ∧
    ((clothesSubstep P offs)^[k] s).indices = s.indices ∧
    ((clothesSubstep P offs)^[k] s).colors = s.colors := by
  induction k with
  | zero => exact ⟨rfl, rfl, rfl, rfl, rfl, rfl⟩
  | succ k ih =>
    rw [Function.iterate_succ_apply']
    exact ⟨ih.1, ih.2.1, ih.2.2.1, ih.2.2.2.1, ih.2.2.2.2.1, ih.2.2.2.2.2⟩

/-- Strict row-major (lexicographic) order on grid indices. -/
def lexLt (a b : ℤ × ℤ) : Prop := a.1 < b.1 ∨ (a.1 = b.1 ∧ a.2 < b.2)

theorem lexLt_ne {a b : ℤ × ℤ} (h : lexLt a b) : a ≠ b := by
  intro hEq
  subst hEq
  rcases h with h | ⟨_, h⟩ <;> omega

theorem lexLt_asymm {a b : ℤ × ℤ} (h : lexLt a b) : ¬ lexLt b a := by
  intro h2
  rcases h with h | ⟨he, h⟩ <;> rcases h2 with h2 | ⟨he2, h2⟩ <;> omega

theorem rowMajor_pairwise (n : ℕ) : (rowMajor n).Pairwise lexLt := by
  unfold rowMajor
  rw [List.pairwise_flatMap]
  constructor
  · intro a _
    rw [List.pairwise_map]
    refine (List.pairwise_lt_range n).imp ?_
    intro j k h
    right
    refine ⟨rfl, ?_⟩
    show ((j : ℤ)) < (k : ℤ)
    exact_mod_cast h
  · refine (List.pairwise_lt_range n).imp ?_
    intro i1 i2 h x hx y hy
    rcases List.mem_map.mp hx with ⟨j1, _, rfl⟩
    rcases List.mem_map.mp hy with ⟨j2, _, rfl⟩
    left
    show ((i1 : ℤ)) < (i2 : ℤ)
    exact_mod_cast h

theorem rowMajor_nodup (n : ℕ) : (rowMajor n).Nodup :=
  (rowMajor_pairwise n).imp lexLt_ne

theorem rowMajor_length (n : ℕ) : (rowMajor n).length = n * n := by
  unfold rowMajor
  rw [List.length_flatMap]
  have hmap : (List.range n).map (List.length ∘ fun (i : ℕ) =>
      (List.range n).map (fun (j : ℕ) => ((i : ℤ), (j : ℤ)))) =
      (List.range n).map (Function.const ℕ n) := by
    apply List.map_congr_left
    intro a _
    simp [Function.const]
  rw [hmap, List.map_const, List.sum_replicate, List.length_range, smul_eq_mul]

theorem Vec3.norm_axis_z (a : ℝ) : (Vec3.mk 0 0 a).norm = |a| := by
  rw [Vec3.norm]
  simp only [Vec3.dot, Vec3.mk_x, Vec3.mk_y, Vec3.mk_z, mul_zero, zero_mul, zero_add, add_zero]
  exact Real.sqrt_mul_self_eq_abs a

/-- The unjittered flat lattice written in the spec: node (i, j) at
`(i*quad_size - 0.5, 0.6, j*quad_size - 0.5)`. -/
noncomputable def latticePos (n : ℕ) (p : ℤ × ℤ) : Vec3 :=
  ⟨(p.1 : ℝ) * (1 / (n : ℝ)) - 0.5, 0.6, (p.2 : ℝ) * (1 / (n : ℝ)) - 0.5⟩

/-- C9: for every n ≥ 2 and any raw random samples, the grid has exactly n^2
distinct nodes; initialization gives every node zero velocity and height
0.6, axis-adjacent nodes are exactly quad_size = 1/n apart, and the jitter
is one shared vector, so all relative positions equal those of the
unjittered lattice. -/
theorem initialize_mass_points_spec (n : ℕ) (hn : 2 ≤ n) (rnd : ℝ × ℝ) :
    ((rowMajor n).length = n ^ 2 ∧ (rowMajor n).Nodup) ∧
    (∀ p, (initialize_mass_points n rnd).2 p = ⟨0, 0, 0⟩) ∧
    (∀ p, ((initialize_mass_points n rnd).1 p).y = 0.6) ∧
    (∀ p : ℤ × ℤ,
      ((initialize_mass_points n rnd).1 (p.1 + 1, p.2) -
        (initialize_mass_points n rnd).1 p).norm = 1 / (n : ℝ) ∧
      ((initialize_mass_points n rnd).1 (p.1, p.2 + 1) -
        (initialize_mass_points n rnd).1 p).norm = 1 / (n : ℝ)) ∧
    (∀ p q : ℤ × ℤ,
      (initialize_mass_points n rnd).1 p - (initialize_mass_points n rnd).1 q =
        latticePos n p - latticePos n q) := by
  have hnpos : (0 : ℝ) < (n : ℝ) := by
    have : (0 : ℕ) < n := by omega
    exact_mod_cast this
  refine ⟨⟨by rw [rowMajor_length]; ring, rowMajor_nodup n⟩, ?_, ?_, ?_, ?_⟩
  · intro p; rfl
  · intro p; rfl
  · intro p
    constructor
    · have hdiff : (initialize_mass_points n rnd).1 (p.1 + 1, p.2) -
          (initialize_mass_points n rnd).1 p = ⟨1 / (n : ℝ), 0, 0⟩ := by
        simp only [initialize_mass_points]
        ext <;> simp only [Vec3.sub_x, Vec3.sub_y, Vec3.sub_z, Vec3.mk_x, Vec3.mk_y,
          Vec3.mk_z] <;> push_cast <;> ring
      rw [hdiff, Vec3.norm_axis_x, abs_of_pos (by positivity)]
    · have hdiff : (initialize_mass_points n rnd).1 (p.1, p.2 + 1) -
          (initialize_mass_points n rnd).1 p = ⟨0, 0, 1 / (n : ℝ)⟩ := by
        simp only [initialize_mass_points]
        ext <;> simp only [Vec3.sub_x, Vec3.sub_y, Vec3.sub_z, Vec3.mk_x, Vec3.mk_y,
          Vec3.mk_z] <;> push_cast <;> ring
      rw [hdiff, Vec3.norm_axis_z, abs_of_pos (by positivity)]
  · intro p q
    simp only [initialize_mass_points, latticePos]
    ext <;> simp only [Vec3.sub_x, Vec3.sub_y, Vec3.sub_z, Vec3.mk_x, Vec3.mk_y,
      Vec3.mk_z] <;> push_cast <;> ring

/-- Witness for C9 at n = 2 with raw random samples (0, 0). -/
theorem initialize_mass_points_spec_witness :
    (((rowMajor 2).length = 2 ^ 2 ∧ (rowMajor 2).Nodup) ∧
    (∀ p, (initialize_mass_points 2 (0, 0)).2 p = ⟨0, 0, 0⟩) ∧
    (∀ p, ((initialize_mass_points 2 (0, 0)).1 p).y = 0.6) ∧
    (∀ p : ℤ × ℤ,
      ((initialize_mass_points 2 (0, 0)).1 (p.1 + 1, p.2) -
        (initialize_mass_points 2 (0, 0)).1 p).norm = 1 / ((2 : ℕ) : ℝ) ∧
      ((initialize_mass_points 2 (0, 0)).1 (p.1, p.2 + 1) -
        (initialize_mass_points 2 (0, 0)).1 p).norm = 1 / ((2 : ℕ) : ℝ)) ∧
    (∀ p q : ℤ × ℤ,
      (initialize_mass_points 2 (0, 0)).1 p - (initialize_mass_points 2 (0, 0)).1 q =
        latticePos 2 p - latticePos 2 q)) :=
  initialize_mass_points_spec 2 (by norm_num) (0, 0)

/-- A zero-separation event: some in-bounds node and one of its in-bounds
neighbors over an offset of the topology hold exactly coinciding positions,
so the spring pass evaluates `x_ij.normalized()` on the zero vector
(a division by the zero norm, which on the Taichi float fields produces
NaN components that then propagate into velocities and positions). -/
def zeroSeparationEvent (P : Params) (offs : List (ℤ × ℤ)) (x : ℤ × ℤ → Vec3) : Prop :=
  ∃ i off, off ∈ offs ∧ inGrid P.n i ∧ inGrid P.n (i.1 + off.1, i.2 + off.2) ∧
    (x i - x (i.1 + off.1, i.2 + off.2)).dot
      (x i - x (i.1 + off.1, i.2 + off.2)) = 0

/-- Positions with two spring-connected nodes coinciding: nodes (0,0) and
(0,1) both sit at (0, 0.6, 0); every other node keeps its lattice place. -/
noncomputable def coincidingX : ℤ × ℤ → Vec3 :=
  fun p => if p = ((0 : ℤ), (0 : ℤ)) ∨ p = ((0 : ℤ), (1 : ℤ)) then ⟨0, 0.6, 0⟩
    else latticePos 128 p

theorem coincidingX_00 : coincidingX ((0 : ℤ), (0 : ℤ)) = ⟨0, 0.6, 0⟩ := by
  simp [coincidingX]

theorem coincidingX_01 : coincidingX ((0 : ℤ), (1 : ℤ)) = ⟨0, 0.6, 0⟩ := by
  simp [coincidingX]

/-- C3 fails on the code: at a state with two coinciding spring-connected
nodes, the spring pass of p.clothes.py reaches a zero-separation pair whose
normalization divisor `norm(x_ij)` is exactly zero; the script has no guard
for this case (spec section 9 records the guard as absent from the source),
so the float computation divides by zero instead of contributing zero
force. -/
theorem zeroSeparation_unguarded :
    zeroSeparationEvent clothesParams (initialize_spring_offsets false) coincidingX ∧
    (coincidingX ((0 : ℤ), (0 : ℤ)) - coincidingX ((0 : ℤ), (1 : ℤ))).norm = 0 := by
  have hsub : coincidingX ((0 : ℤ), (0 : ℤ)) - coincidingX ((0 : ℤ), (1 : ℤ)) =
      ⟨0, 0, 0⟩ := by
    rw [coincidingX_00, coincidingX_01]
    ext <;> norm_num
  constructor
  · refine ⟨((0 : ℤ), (0 : ℤ)), ((0 : ℤ), (1 : ℤ)), ?_, by decide, ?_, ?_⟩
    · rw [fullOffsets_eq]
      decide
    · show inGrid clothesParams.n ((0 : ℤ) + 0, (0 : ℤ) + 1)
      decide
    · show (coincidingX ((0 : ℤ), (0 : ℤ)) -
          coincidingX ((0 : ℤ) + 0, (0 : ℤ) + 1)).dot _ = 0
      rw [show ((0 : ℤ) + 0, (0 : ℤ) + 1) = ((0 : ℤ), (1 : ℤ)) by decide, hsub]
      norm_num [Vec3.dot]
  · rw [hsub, Vec3.norm]
    norm_num [Vec3.dot]

/-- The perpendicular offset computed inside pick_node (p.clothes.py lines
146-150) for one node: `t = dot(pos - ray_ori, ray_dir)`,
`closest = ray_ori + t * ray_dir`, `dist = norm(closest - pos)`. -/
noncomputable def rayDist (ray_ori ray_dir pos : Vec3) : ℝ :=
  let to_node := pos - ray_ori
  let t := to_node.dot ray_dir
  let closest := ray_ori + t • ray_dir
  (closest - pos).norm

/-- The loop body of pick_node: keep the node whose distance is below 0.02
and below the best distance so far. -/
noncomputable def pickStep (d : ℤ × ℤ → ℝ) (acc : Option (ℤ × ℤ) × ℝ)
    (ij : ℤ × ℤ) : Option (ℤ × ℤ) × ℝ :=
  let dist := d ij
  if dist < 0.02 ∧ dist < acc.2 then (some ij, dist) else acc

/-- The full scan of pick_node: fold the loop body over the nodes, starting
from `node = None, min_dist = 1e10`. -/
noncomputable def pickFold (d : ℤ × ℤ → ℝ) (L : List (ℤ × ℤ)) :
    Option (ℤ × ℤ) × ℝ :=
  L.foldl (pickStep d) ((none : Option (ℤ × ℤ)), 1e10)

/-- pick_node (p.clothes.py lines 141-154): row-major double loop keeping
the node whose distance to the ray is below 0.02 and below the best
distance so far (min_dist starts at 1e10); returns the kept node. -/
noncomputable def pick_node (n : ℕ) (x : ℤ × ℤ → Vec3) (ray_ori ray_dir : Vec3) :
    Option (ℤ × ℤ) :=
  (pickFold (fun ij => rayDist ray_ori ray_dir (x ij)) (rowMajor n)).1

/-- The per-frame mouse block of main (p.clothes.py lines 172-185): when the
button is pressed and no drag is active, pick a node through the current ray
and start dragging it if the pick succeeds; when pressed during a drag,
update the drag target to `ray_ori + ray_dir * 1.5`; when the button is not
pressed, reset the dragging flag. -/
noncomputable def mouseUpdate (P : Params) (pressed : Bool) (ray_ori ray_dir : Vec3)
    (s : SimState) : SimState :=
  if pressed then
    if s.dragging = false then
      match pick_node P.n s.x ray_ori ray_dir with
      | some p => { s with picked_node := p, dragging := true }
      | none => s
    else { s with drag_pos := ray_ori + (1.5 : ℝ) • ray_dir }
  else { s with dragging := false }

/-- The conceptual picked index of the spec DragState: the code represents
`none` by a cleared dragging flag, leaving the picked_node buffer stale. -/
def absPickedIndex (s : SimState) : Option (ℤ × ℤ) :=
  if s.dragging then some s.picked_node else none

/-- C7: the drag controller state is the boolean dragging flag (two states);
on the transition taken when the press is released while in Dragging, the
controller returns to Idle and the abstract picked index becomes none; and at
most one node is picked at any time. -/
theorem dragController_release_clears (P : Params) (s : SimState)
    (ray_ori ray_dir : Vec3) :
    (s.dragging = true →
      (mouseUpdate P false ray_ori ray_dir s).dragging = false ∧
      absPickedIndex (mouseUpdate P false ray_ori ray_dir s) = none) ∧
    (∀ a b : ℤ × ℤ, absPickedIndex s = some a → absPickedIndex s = some b → a = b) := by
  constructor
  · intro _
    constructor
    · simp [mouseUpdate]
    · simp [mouseUpdate, absPickedIndex]
  · intro a b ha hb
    exact Option.some_inj.mp (ha.symm.trans hb)

/-- Witness for C7: releasing the press while dragging node (3,5). -/
theorem dragController_release_clears_witness :
    (mouseUpdate clothesParams false ⟨0, 0, 0⟩ ⟨1, 0, 0⟩
        (SimState.mk (fun _ => ⟨0, 0, 0⟩) (fun _ => ⟨0, 0, 0⟩) ⟨0, 0, 0⟩ true (3, 5)
          ⟨0, 0, 0⟩ (fun _ => 0) (fun _ => ⟨0, 0, 0⟩))).dragging = false ∧
    absPickedIndex (mouseUpdate clothesParams false ⟨0, 0, 0⟩ ⟨1, 0, 0⟩
        (SimState.mk (fun _ => ⟨0, 0, 0⟩) (fun _ => ⟨0, 0, 0⟩) ⟨0, 0, 0⟩ true (3, 5)
          ⟨0, 0, 0⟩ (fun _ => 0) (fun _ => ⟨0, 0, 0⟩))) = none :=
  (dragController_release_clears clothesParams
    (SimState.mk (fun _ => ⟨0, 0, 0⟩) (fun _ => ⟨0, 0, 0⟩) ⟨0, 0, 0⟩ true (3, 5)
      ⟨0, 0, 0⟩ (fun _ => 0) (fun _ => ⟨0, 0, 0⟩)) ⟨0, 0, 0⟩ ⟨1, 0, 0⟩).1 rfl

/-- Reciprocity of the per-pair spring contribution: swapping the two nodes
(and negating the offset, as the grid topology does) negates the
contribution, for every position and velocity snapshot. -/
theorem springForceContrib_reciprocal (P : Params) (xi xj vi vj : Vec3) (off : ℤ × ℤ) :
    springForceContrib P xj xi vj vi (-off.1, -off.2) =
      - springForceContrib P xi xj vi vj off := by
  simp only [springForceContrib]
  rw [show xj - xi = -(xi - xj) from (Vec3.neg_sub_vec xi xj).symm,
    show vj - vi = -(vi - vj) from (Vec3.neg_sub_vec vi vj).symm,
    Vec3.normalized_neg, Vec3.norm_neg, offNorm_neg, Vec3.dot_neg_neg]
  ext <;> simp only [Vec3.add_x, Vec3.add_y, Vec3.add_z, Vec3.neg_x, Vec3.neg_y,
    Vec3.neg_z, Vec3.smul_x, Vec3.smul_y, Vec3.smul_z] <;> ring

/-- The substep of 3.0physsim.py specialized to a two-node system joined by
one spring over the offset `off` (the second node sees the first through the
negated offset, exactly as in the grid): gravity pass on both nodes, the
in-place spring pass visiting node 1 then node 2 (node 2 reads the already
updated velocity of node 1), then the third pass on each node. -/
noncomputable def pairSubstep (P : Params) (off : ℤ × ℤ) (ball_center : Vec3)
    (st : (Vec3 × Vec3) × (Vec3 × Vec3)) : (Vec3 × Vec3) × (Vec3 × Vec3) :=
  match st with
  | ((x1, v1), (x2, v2)) =>
    let v1g := v1 + P.dt • P.gravity
    let v2g := v2 + P.dt • P.gravity
    let v1s := v1g + P.dt • springForceContrib P x1 x2 v1g v2g off
    let v2s := v2g + P.dt • springForceContrib P x2 x1 v2g v1s (-off.1, -off.2)
    (thirdPassNodePhys P ball_center x1 v1s, thirdPassNodePhys P ball_center x2 v2s)

/-- One pair substep conserves total momentum when gravity, dashpot damping
and drag damping vanish and both nodes are outside the collider. -/
theorem pairSubstep_momentum_step (P : Params) (off : ℤ × ℤ) (c : Vec3)
    (st : (Vec3 × Vec3) × (Vec3 × Vec3))
    (hg : P.gravity = ⟨0, 0, 0⟩) (hdp : P.dashpot_damping = 0)
    (hdd : P.drag_damping = 0)
    (h1 : P.ball_radius < (st.1.1 - c).norm)
    (h2 : P.ball_radius < (st.2.1 - c).norm) :
    (pairSubstep P off c st).1.2 + (pairSubstep P off c st).2.2 = st.1.2 + st.2.2 := by
  obtain ⟨⟨x1, v1⟩, ⟨x2, v2⟩⟩ := st
  have hgrav : ∀ w : Vec3, w + P.dt • P.gravity = w := by
    intro w
    rw [hg]
    ext <;> simp
  have hthird : ∀ xw vw : Vec3, P.ball_radius < (xw - c).norm →
      (thirdPassNodePhys P c xw vw).2 = vw := by
    intro xw vw hout
    simp only [thirdPassNodePhys, collisionStep]
    rw [if_neg (not_le.mpr hout), hdd]
    ext <;> simp
  have hrecip : springForceContrib P x2 x1 v2 (v1 + P.dt •
        springForceContrib P x1 x2 v1 v2 off) (-off.1, -off.2) =
      - springForceContrib P x1 x2 v1 v2 off := by
    rw [springForceContrib_vel_indep P hdp x2 x1 v2
      (v1 + P.dt • springForceContrib P x1 x2 v1 v2 off) v2 v1 (-off.1, -off.2)]
    exact springForceContrib_reciprocal P x1 x2 v1 v2 off
  simp only [pairSubstep]
  rw [hgrav v1, hgrav v2, hrecip]
  rw [hthird x1 _ h1, hthird x2 _ h2]
  ext <;> simp only [Vec3.add_x, Vec3.add_y, Vec3.add_z, Vec3.neg_x, Vec3.neg_y,
    Vec3.neg_z, Vec3.smul_x, Vec3.smul_y, Vec3.smul_z] <;> ring

/-- C8: in the two-node system the spring contributions the nodes exert on
each other are reciprocal (equal and opposite) for every snapshot, and with
zero gravity, zero dashpot damping and zero drag damping, while both nodes
stay outside the collider, the total linear momentum v1 + v2 is unchanged
over any number of substeps. -/
theorem pair_momentum_conserved (P : Params) (off : ℤ × ℤ) (c : Vec3)
    (st : (Vec3 × Vec3) × (Vec3 × Vec3)) (k : ℕ)
    (hg : P.gravity = ⟨0, 0, 0⟩) (hdp : P.dashpot_damping = 0)
    (hdd : P.drag_damping = 0)
    (hout : ∀ m, m < k →
      P.ball_radius < (((pairSubstep P off c)^[m] st).1.1 - c).norm ∧
      P.ball_radius < (((pairSubstep P off c)^[m] st).2.1 - c).norm) :
    (∀ xi xj vi vj : Vec3,
      springForceContrib P xj xi vj vi (-off.1, -off.2) =
        - springForceContrib P xi xj vi vj off) ∧
    ((pairSubstep P off c)^[k] st).1.2 + ((pairSubstep P off c)^[k] st).2.2 =
      st.1.2 + st.2.2 := by
  refine ⟨fun xi xj vi vj => springForceContrib_reciprocal P xi xj vi vj off, ?_⟩
  induction k with
  | zero => rfl
  | succ k ih =>
    rw [Function.iterate_succ_apply']
    rw [pairSubstep_momentum_step P off c _ hg hdp hdd
      (hout k (by omega)).1 (hout k (by omega)).2]
    exact ih (fun m hm => hout m (by omega))

/-- The physsim parameters with zero gravity, zero dashpot damping and zero
drag damping, used to exercise the two-node momentum property. -/
noncomputable def freePairParams : Params := ⟨128, ⟨0, 0, 0⟩, 3e4, 0, 0, 0.3, 4e-2 / 128⟩

/-- Witness for C8: one substep of a concrete two-node system away from the
collider keeps the total momentum (0, 0, 1). -/
theorem pair_momentum_conserved_witness :
    (∀ xi xj vi vj : Vec3,
      springForceContrib freePairParams xj xi vj vi
          (-(((0 : ℤ), (1 : ℤ)).1), -(((0 : ℤ), (1 : ℤ)).2)) =
        - springForceContrib freePairParams xi xj vi vj ((0 : ℤ), (1 : ℤ))) ∧
    ((pairSubstep freePairParams ((0 : ℤ), (1 : ℤ)) ⟨0, 0, 0⟩)^[1]
        ((⟨5, 0, 0⟩, ⟨0, 0, 1⟩), (⟨5, 0, 1 / 2⟩, ⟨0, 0, 0⟩))).1.2 +
      ((pairSubstep freePairParams ((0 : ℤ), (1 : ℤ)) ⟨0, 0, 0⟩)^[1]
        ((⟨5, 0, 0⟩, ⟨0, 0, 1⟩), (⟨5, 0, 1 / 2⟩, ⟨0, 0, 0⟩))).2.2 =
      (((⟨5, 0, 0⟩ : Vec3), (⟨0, 0, 1⟩ : Vec3)),
        ((⟨5, 0, 1 / 2⟩ : Vec3), (⟨0, 0, 0⟩ : Vec3))).1.2 +
      (((⟨5, 0, 0⟩ : Vec3), (⟨0, 0, 1⟩ : Vec3)),
        ((⟨5, 0, 1 / 2⟩ : Vec3), (⟨0, 0, 0⟩ : Vec3))).2.2 := by
  apply pair_momentum_conserved freePairParams ((0 : ℤ), (1 : ℤ)) ⟨0, 0, 0⟩
    (((⟨5, 0, 0⟩ : Vec3), (⟨0, 0, 1⟩ : Vec3)), ((⟨5, 0, 1 / 2⟩ : Vec3), (⟨0, 0, 0⟩ : Vec3)))
    1 rfl rfl rfl
  intro m hm
  have hm0 : m = 0 := by omega
  subst hm0
  rw [Function.iterate_zero_apply]
  constructor
  · show freePairParams.ball_radius < ((Vec3.mk 5 0 0) - ⟨0, 0, 0⟩).norm
    rw [Vec3.sub_zero_mk, Vec3.norm_axis_x,
      show freePairParams.ball_radius = (0.3 : ℝ) from rfl]
    norm_num
  · show freePairParams.ball_radius < ((Vec3.mk 5 0 (1 / 2)) - ⟨0, 0, 0⟩).norm
    rw [Vec3.sub_zero_mk, Vec3.norm,
      show (Vec3.mk (5 : ℝ) 0 (1 / 2)).dot ⟨5, 0, 1 / 2⟩ = 101 / 4 by norm_num [Vec3.dot],
      show freePairParams.ball_radius = (0.3 : ℝ) from rfl,
      Real.lt_sqrt (by norm_num)]
    norm_num

/-- Loop invariant of the pick_node scan over the nodes already seen:
either nothing fired (min_dist still 1e10 and no seen node is under the
tolerance), or the best node so far is a seen node under the tolerance whose
distance is minimal among the seen ones and strictly smaller than every
strictly-earlier seen node's distance. -/
def pickInv (d : ℤ × ℤ → ℝ) (seen : List (ℤ × ℤ)) : Option (ℤ × ℤ) × ℝ → Prop
  | (none, m) => m = 1e10 ∧ ∀ ij ∈ seen, ¬ d ij < 0.02
  | (some b, m) => m = d b ∧ d b < 0.02 ∧ b ∈ seen ∧
      (∀ ij ∈ seen, d b ≤ d ij) ∧
      (∀ ij ∈ seen, lexLt ij b → d b < d ij)

theorem pickInv_step (d : ℤ × ℤ → ℝ) (seen : List (ℤ × ℤ))
    (acc : Option (ℤ × ℤ) × ℝ) (c : ℤ × ℤ)
    (hseen : ∀ s ∈ seen, lexLt s c) (hInv : pickInv d seen acc) :
    pickInv d (seen ++ [c]) (pickStep d acc c) := by
  obtain ⟨ob, m⟩ := acc
  simp only [pickStep]
  cases ob with
  | none =>
    obtain ⟨hm, hnone⟩ := hInv
    subst hm
    by_cases hfire : d c < 0.02 ∧ d c < 1e10
    · rw [if_pos hfire]
      refine ⟨rfl, hfire.1, List.mem_append_right _ (List.mem_singleton_self c), ?_, ?_⟩
      · intro ij hij
        rcases List.mem_append.mp hij with h | h
        · have := hnone ij h
          linarith [hfire.1]
        · have : ij = c := by simpa using h
          subst this
          exact le_refl _
      · intro ij hij hlt
        rcases List.mem_append.mp hij with h | h
        · have := hnone ij h
          linarith [hfire.1]
        · have : ij = c := by simpa using h
          subst this
          exact absurd rfl (lexLt_ne hlt)
    · rw [if_neg hfire]
      refine ⟨rfl, ?_⟩
      intro ij hij
      rcases List.mem_append.mp hij with h | h
      · exact hnone ij h
      · have : ij = c := by simpa using h
        subst this
        intro hc
        exact hfire ⟨hc, by linarith⟩
  | some b =>
    obtain ⟨hm, hb02, hbmem, hmin, htie⟩ := hInv
    subst hm
    by_cases hfire : d c < 0.02 ∧ d c < d b
    · rw [if_pos hfire]
      refine ⟨rfl, hfire.1, List.mem_append_right _ (List.mem_singleton_self c), ?_, ?_⟩
      · intro ij hij
        rcases List.mem_append.mp hij with h | h
        · exact le_of_lt (lt_of_lt_of_le hfire.2 (hmin ij h))
        · have : ij = c := by simpa using h
          subst this
          exact le_refl _
      · intro ij hij hlt
        rcases List.mem_append.mp hij with h | h
        · exact lt_of_lt_of_le hfire.2 (hmin ij h)
        · have : ij = c := by simpa using h
          subst this
          exact absurd rfl (lexLt_ne hlt)
    · rw [if_neg hfire]
      refine ⟨rfl, hb02, List.mem_append_left _ hbmem, ?_, ?_⟩
      · intro ij hij
        rcases List.mem_append.mp hij with h | h
        · exact hmin ij h
        · have hic : ij = c := by simpa using h
          subst hic
          by_cases h02 : d ij < 0.02
          · have hnlt : ¬ d ij < d b := fun hc => hfire ⟨h02, hc⟩
            linarith [not_lt.mp hnlt]
          · linarith [hb02, not_lt.mp h02]
      · intro ij hij hlt
        rcases List.mem_append.mp hij with h | h
        · exact htie ij h hlt
        · have : ij = c := by simpa using h
          subst this
          exact absurd hlt (lexLt_asymm (hseen b hbmem))

theorem pickInv_fold (d : ℤ × ℤ → ℝ) :
    ∀ (L : List (ℤ × ℤ)) (seen : List (ℤ × ℤ)) (acc : Option (ℤ × ℤ) × ℝ),
      L.Pairwise lexLt → (∀ s ∈ seen, ∀ c ∈ L, lexLt s c) → pickInv d seen acc →
      pickInv d (seen ++ L) (L.foldl (pickStep d) acc) := by
  intro L
  induction L with
  | nil =>
    intro seen acc _ _ hInv
    simpa using hInv
  | cons c t ih =>
    intro seen acc hpw hcross hInv
    simp only [List.foldl_cons]
    have hstep := pickInv_step d seen acc c
      (fun s hs => hcross s hs c (List.mem_cons_self c t)) hInv
    have hcross2 : ∀ s ∈ seen ++ [c], ∀ c2 ∈ t, lexLt s c2 := by
      intro s hs c2 hc2
      rcases List.mem_append.mp hs with h | h
      · exact hcross s h c2 (List.mem_cons_of_mem c hc2)
      · have : s = c := by simpa using h
        subst this
        exact (List.pairwise_cons.mp hpw).1 c2 hc2
    have hres := ih (seen ++ [c]) (pickStep d acc c)
      (List.pairwise_cons.mp hpw).2 hcross2 hstep
    have happ : (seen ++ [c]) ++ t = seen ++ (c :: t) := by simp
    rw [happ] at hres
    exact hres

/-- For a unit ray direction the distance pick_node computes for a node is
the perpendicular distance: the foot of the perpendicular is the closest
point of the infinite ray to the node. -/
theorem rayDist_le_of_unit (ray_ori ray_dir pos : Vec3)
    (hdir : ray_dir.dot ray_dir = 1) (t : ℝ) :
    rayDist ray_ori ray_dir pos ≤ ((ray_ori + t • ray_dir) - pos).norm := by
  simp only [rayDist, Vec3.norm]
  apply Real.sqrt_le_sqrt
  have hsplit : (ray_ori + t • ray_dir) - pos =
      ((ray_ori + ((pos - ray_ori).dot ray_dir) • ray_dir) - pos) +
        (t - (pos - ray_ori).dot ray_dir) • ray_dir := by
    ext <;> simp <;> ring
  rw [hsplit]
  set e := (ray_ori + ((pos - ray_ori).dot ray_dir) • ray_dir) - pos with he
  set s := t - (pos - ray_ori).dot ray_dir with hs
  have hexp : (e + s • ray_dir).dot (e + s • ray_dir) =
      e.dot e + 2 * s * (e.dot ray_dir) + s ^ 2 * (ray_dir.dot ray_dir) := by
    simp only [Vec3.dot, Vec3.add_x, Vec3.add_y, Vec3.add_z, Vec3.smul_x,
      Vec3.smul_y, Vec3.smul_z]
    ring
  have hedir : e.dot ray_dir = 0 := by
    rw [he]
    simp only [Vec3.dot, Vec3.add_x, Vec3.add_y, Vec3.add_z, Vec3.sub_x, Vec3.sub_y,
      Vec3.sub_z, Vec3.smul_x, Vec3.smul_y, Vec3.smul_z] at hdir ⊢
    linear_combination ((pos.x - ray_ori.x) * ray_dir.x + (pos.y - ray_ori.y) * ray_dir.y +
      (pos.z - ray_ori.z) * ray_dir.z) * hdir
  rw [hexp, hedir, hdir]
  nlinarith [sq_nonneg s]

/-- C5: for a unit ray direction, the distance pick_node computes is the
perpendicular distance to the infinite ray (the foot of the perpendicular is
the nearest ray point); pick_node returns none exactly when no grid node is
strictly within the 0.02 tolerance; and a returned node is an in-grid node
under the tolerance whose distance is minimal over the whole grid, with
every strictly-earlier node in row-major order at strictly larger distance
(first node wins ties). -/
theorem pick_node_spec (n : ℕ) (x : ℤ × ℤ → Vec3) (ray_ori ray_dir : Vec3)
    (hdir : ray_dir.dot ray_dir = 1) :
    (∀ pos : Vec3, ∀ t : ℝ,
      rayDist ray_ori ray_dir pos ≤ ((ray_ori + t • ray_dir) - pos).norm) ∧
    (pick_node n x ray_ori ray_dir = none ↔
      ∀ ij, inGrid n ij → ¬ rayDist ray_ori ray_dir (x ij) < 0.02) ∧
    (∀ b, pick_node n x ray_ori ray_dir = some b →
      inGrid n b ∧ rayDist ray_ori ray_dir (x b) < 0.02 ∧
      (∀ ij, inGrid n ij →
        rayDist ray_ori ray_dir (x b) ≤ rayDist ray_ori ray_dir (x ij)) ∧
      (∀ ij, inGrid n ij → lexLt ij b →
        rayDist ray_ori ray_dir (x b) < rayDist ray_ori ray_dir (x ij))) := by
  have hInv : pickInv (fun ij => rayDist ray_ori ray_dir (x ij)) (rowMajor n)
      (pickFold (fun ij => rayDist ray_ori ray_dir (x ij)) (rowMajor n)) := by
    have h0 : pickInv (fun ij => rayDist ray_ori ray_dir (x ij)) []
        ((none : Option (ℤ × ℤ)), 1e10) :=
      ⟨rfl, fun ij h => absurd h (List.not_mem_nil ij)⟩
    have hf := pickInv_fold (fun ij => rayDist ray_ori ray_dir (x ij)) (rowMajor n) []
      ((none : Option (ℤ × ℤ)), 1e10) (rowMajor_pairwise n)
      (fun s hs => absurd hs (List.not_mem_nil s)) h0
    simpa using hf
  refine ⟨fun pos t => rayDist_le_of_unit ray_ori ray_dir pos hdir t, ?_, ?_⟩
  · rcases hpf : pickFold (fun ij => rayDist ray_ori ray_dir (x ij)) (rowMajor n)
      with ⟨ob, m⟩
    rw [hpf] at hInv
    have hpn : pick_node n x ray_ori ray_dir = ob := by
      show (pickFold (fun ij => rayDist ray_ori ray_dir (x ij)) (rowMajor n)).1 = ob
      rw [hpf]
    cases ob with
    | none =>
      obtain ⟨_, hnone⟩ := hInv
      constructor
      · intro _ ij hij
        exact hnone ij ((mem_rowMajor n ij).mpr hij)
      · intro _
        exact hpn
    | some b =>
      obtain ⟨_, hb02, hbmem, _, _⟩ := hInv
      constructor
      · intro hcontra
        rw [hpn] at hcontra
        exact (Option.some_ne_none b hcontra).elim
      · intro hall
        exact absurd hb02 (hall b ((mem_rowMajor n b).mp hbmem))
  · intro b hsome
    rcases hpf : pickFold (fun ij => rayDist ray_ori ray_dir (x ij)) (rowMajor n)
      with ⟨ob, m⟩
    rw [hpf] at hInv
    have hpn : pick_node n x ray_ori ray_dir = ob := by
      show (pickFold (fun ij => rayDist ray_ori ray_dir (x ij)) (rowMajor n)).1 = ob
      rw [hpf]
    rw [hpn] at hsome
    cases ob with
    | none => exact (Option.noConfusion hsome)
    | some b2 =>
      injection hsome with hbb
      subst hbb
      obtain ⟨_, hb02, hbmem, hmin, htie⟩ := hInv
      exact ⟨(mem_rowMajor n b2).mp hbmem, hb02,
        fun ij hij => hmin ij ((mem_rowMajor n ij).mpr hij),
        fun ij hij hlt => htie ij ((mem_rowMajor n ij).mpr hij) hlt⟩

/-- Witness for C5 on a concrete 2 x 2 grid, ray along the x axis. -/
theorem pick_node_spec_witness :
    (∀ pos : Vec3, ∀ t : ℝ,
      rayDist ⟨0, 0, 0⟩ ⟨1, 0, 0⟩ pos ≤
        (((⟨0, 0, 0⟩ : Vec3) + t • ⟨1, 0, 0⟩) - pos).norm) ∧
    (pick_node 2 (fun _ => ⟨0, 1, 0⟩) ⟨0, 0, 0⟩ ⟨1, 0, 0⟩ = none ↔
      ∀ ij, inGrid 2 ij →
        ¬ rayDist ⟨0, 0, 0⟩ ⟨1, 0, 0⟩ ((fun _ => (⟨0, 1, 0⟩ : Vec3)) ij) < 0.02) ∧
    (∀ b, pick_node 2 (fun _ => ⟨0, 1, 0⟩) ⟨0, 0, 0⟩ ⟨1, 0, 0⟩ = some b →
      inGrid 2 b ∧
      rayDist ⟨0, 0, 0⟩ ⟨1, 0, 0⟩ ((fun _ => (⟨0, 1, 0⟩ : Vec3)) b) < 0.02 ∧
      (∀ ij, inGrid 2 ij →
        rayDist ⟨0, 0, 0⟩ ⟨1, 0, 0⟩ ((fun _ => (⟨0, 1, 0⟩ : Vec3)) b) ≤
          rayDist ⟨0, 0, 0⟩ ⟨1, 0, 0⟩ ((fun _ => (⟨0, 1, 0⟩ : Vec3)) ij)) ∧
      (∀ ij, inGrid 2 ij → lexLt ij b →
        rayDist ⟨0, 0, 0⟩ ⟨1, 0, 0⟩ ((fun _ => (⟨0, 1, 0⟩ : Vec3)) b) <
          rayDist ⟨0, 0, 0⟩ ⟨1, 0, 0⟩ ((fun _ => (⟨0, 1, 0⟩ : Vec3)) ij))) :=
  pick_node_spec 2 (fun _ => ⟨0, 1, 0⟩) ⟨0, 0, 0⟩ ⟨1, 0, 0⟩ (by norm_num [Vec3.dot])
